import Mathlib

/-!
The command-line client `tres`: field projection, rendering, query preprocessing
and name index.

A shallow embedding of `tres.go` (the Trello search command-line client) and
theorems about its field projector (`buildOutputLine`, `buildMemberSlice`),
its query preprocessor (`parseQuery`, `handleAtCommand`), its name index
(`loadBoardInfo`, `NameFromID`), its renderers (`outputCards`, `outputMembers`
and the formatters behind them), its commands (`cmdSearch`, `cmdBoards`) and
the construction of the client (`newTrelloClient`).

Conventions of the embedding.

* A Go `string` is a list of characters (`Str`); the texts handled here are
  valid UTF-8, so bytes and runes need not be told apart.
* A Go `int` is an `Int`; the only place where the 64-bit range matters is
  `strconv.Atoi`, which checks it explicitly.
* A Go `error` value is an `Option GoError` (`none` is `nil`), and a function
  returning `(value, error)` returns a pair.
* Pointers to records (`*TrelloBadges`, `*TrelloLabel`, the cards themselves)
  are taken to be non-nil, as the JSON decoder leaves them for the objects the
  service sends; a record updated through its pointer is returned updated.
* Everything outside the program (the HTTP transport with its JSON decoding,
  the file system, the process environment, and the standard library's
  Unicode tables, float formatting, JSON and workbook writers) is a field of
  `Env`: one fixed answer per request for the duration of a run.
* Standard output is the `stdout` component of `State`.
-/

namespace Tres

/-- A Go string, as its sequence of characters. -/
abbrev Str := List Char

/-! ## The standard library functions the program calls -/

/-- White space in the sense of `unicode.IsSpace`. -/
def isSpace (c : Char) : Bool :=
  let n := c.toNat
  (9 ≤ n && n ≤ 13) || n == 32 || n == 0x85 || n == 0xA0 || n == 0x1680 ||
  (0x2000 ≤ n && n ≤ 0x200A) || n == 0x2028 || n == 0x2029 || n == 0x202F ||
  n == 0x205F || n == 0x3000

/-- The function `strings.TrimSpace`: leading and trailing white space removed. -/
def TrimSpace (s : Str) : Str :=
  ((s.dropWhile isSpace).reverse.dropWhile isSpace).reverse

/-- Worker of `Split`: `skip` characters of a separator just matched are still
to be dropped, `cur` is the current piece, reversed. -/
def splitFrom (sep : Str) : Str → Nat → Str → List Str
  | [], _, cur => [cur.reverse]
  | _ :: cs, skip + 1, cur => splitFrom sep cs skip cur
  | c :: cs, 0, cur =>
    if sep.isPrefixOf (c :: cs) then cur.reverse :: splitFrom sep cs (sep.length - 1) []
    else splitFrom sep cs 0 (c :: cur)

/-- The function `strings.Split`: the pieces of `s` between the successive
(leftmost, non-overlapping) occurrences of `sep`; an empty `sep` splits after
each character. -/
def Split (s sep : Str) : List Str :=
  if sep = [] then s.map (fun c => [c]) else splitFrom sep s 0 []

/-- Worker of `Replace`, with the same `skip` counter as `splitFrom`. -/
def replaceFrom (old new : Str) : Str → Nat → Str
  | [], _ => []
  | _ :: cs, skip + 1 => replaceFrom old new cs skip
  | c :: cs, 0 =>
    if old.isPrefixOf (c :: cs) then new ++ replaceFrom old new cs (old.length - 1)
    else c :: replaceFrom old new cs 0

/-- The call `strings.Replace(s, old, new, -1)`: every (leftmost, non-overlapping)
occurrence of `old` replaced by `new`; an empty `old` matches before each
character and at the end. -/
def Replace (s old new : Str) : Str :=
  if old = [] then new ++ s.flatMap (fun c => c :: new) else replaceFrom old new s 0

/-- The function `strings.Join`. -/
def Join (elems : List Str) (sep : Str) : Str :=
  sep.intercalate elems

/-- The decimal digits of a natural number. -/
def natDigits (n : Nat) : Str := Nat.toDigits 10 n

/-- The function `strconv.Itoa`. -/
def Itoa (i : Int) : Str :=
  match i with
  | Int.ofNat n => natDigits n
  | Int.negSucc n => '-' :: natDigits (n + 1)

/-- The function `strconv.FormatBool`. -/
def FormatBool (b : Bool) : Str :=
  if b then "true".toList else "false".toList

/-- A Go error value: one made by `errors.New` (or handed up by the transport),
or the `*strconv.NumError` of a failed number conversion. -/
inductive GoError where
  | errorString (msg : Str)
  | numError (func num err : Str)
  deriving DecidableEq, Repr

/-- The method `Error()`; `quote` is `strconv.Quote`. -/
def GoError.Error (quote : Str → Str) : GoError → Str
  | .errorString msg => msg
  | .numError func num err =>
    "strconv.".toList ++ func ++ ": parsing ".toList ++ quote num ++ ": ".toList ++ err

/-- Value of a string of decimal digits. -/
def digitsValue (ds : Str) : Nat :=
  ds.foldl (fun acc c => 10 * acc + (c.toNat - '0'.toNat)) 0

/-- The unsigned part of `strconv.Atoi`: a non-empty string of decimal digits. -/
def isDigits (ds : Str) : Bool :=
  !ds.isEmpty && ds.all (fun c => '0' ≤ c && c ≤ '9')

/-- The function `strconv.Atoi` on a 64-bit platform: an optional sign and at
least one decimal digit; on a syntax error the value is 0, out of range it is
the nearest bound. -/
def Atoi (s : Str) : Int × Option GoError :=
  let neg := s.head? = some '-'
  let ds := if s.head? = some '-' ∨ s.head? = some '+' then s.tail else s
  if !isDigits ds then
    (0, some (.numError "Atoi".toList s "invalid syntax".toList))
  else
    let n := digitsValue ds
    if !neg && n ≥ 2 ^ 63 then
      (2 ^ 63 - 1, some (.numError "Atoi".toList s "value out of range".toList))
    else if neg && n > 2 ^ 63 then
      (-(2 ^ 63), some (.numError "Atoi".toList s "value out of range".toList))
    else
      (if neg then -(n : Int) else (n : Int), none)

/-! ## Records -/

/-- A pair of identifier and name, as the board and list listings give it. -/
structure TrelloName where
  ID : Str
  Name : Str
  deriving DecidableEq, Repr

abbrev TrelloNameList := List TrelloName

structure RuntimeConfig where
  ShowUsage : Bool
  Command : Str
  SearchResultFields : Str
  ColSep : Str
  RowSep : Str
  QuoteChar : Str
  CardLimit : Int
  NumberOutput : Bool
  Format : Str
  BoardName : Str
  ListName : Str
  deriving DecidableEq, Repr

/-- The client. The Go map `TrelloLists` is its lookup function: a key that is
absent gives the nil list, which is all the program can observe of it. The
`HTTPClient` is the transport of `Env`. -/
structure TrelloClient where
  TrelloKey : Str
  TrelloToken : Str
  TrelloBoards : TrelloNameList
  TrelloLists : Str → TrelloNameList
  config : RuntimeConfig

structure TrelloBadges where
  Attachments : Int
  CheckItems : Int
  CheckItemsChecked : Int
  Comments : Int
  Description : Bool
  Due : Str
  Fogbugz : Str
  Subscribed : Bool
  ViewingMemberVoted : Bool
  Votes : Int
  deriving DecidableEq, Repr

structure TrelloLabel where
  Color : Str
  ID : Str
  IDBoard : Str
  Name : Str
  Uses : Int
  deriving DecidableEq, Repr

structure CheckItemState where
  IDCheckItem : Str
  State : Str
  deriving DecidableEq, Repr

/-- A card of a search result. `DescData` (an `interface{}`) is kept as the
JSON text it was decoded from, `Pos` (a `float64`) as the rational it denotes. -/
structure TrelloCardSearchResult where
  ID : Str
  Badges : TrelloBadges
  CheckItemStates : List CheckItemState
  Closed : Bool
  DateLastActivity : Str
  Desc : Str
  DescData : Str
  Due : Str
  Email : Str
  IDAttachmentCover : Str
  IDBoard : Str
  IDChecklists : List Str
  IDLabels : List Str
  IDList : Str
  IDMembers : List Str
  IDMembersVoted : List Str
  IDShort : Int
  Labels : List TrelloLabel
  ManualCoverAttachment : Bool
  Name : Str
  Pos : Rat
  ShortLink : Str
  ShortURL : Str
  Subscribed : Bool
  URL : Str
  deriving DecidableEq, Repr

structure CommentBoard where
  IDBoard : Str
  BoardName : Str
  ShortLink : Str
  deriving DecidableEq, Repr

structure CommentCard where
  IDCard : Str
  CardName : Str
  IDShort : Int
  ShortLink : Str
  deriving DecidableEq, Repr

structure CommentList where
  IDList : Str
  ListName : Str
  deriving DecidableEq, Repr

structure CommentData where
  Board : CommentBoard
  Card : CommentCard
  List : CommentList
  Text : Str
  deriving DecidableEq, Repr

structure CommentMember where
  AvatarHash : Str
  FullName : Str
  IDMember : Str
  Initials : Str
  UserName : Str
  deriving DecidableEq, Repr

structure TrelloCardComment where
  Type_ : Str
  Date : Str
  IDComment : Str
  IDMemberCreator : Str
  Data : CommentData
  MemberCreator : CommentMember
  deriving DecidableEq, Repr

structure CheckItem where
  ID : Str
  Name : Str
  NameData : Str
  Pos : Rat
  State : Str
  deriving DecidableEq, Repr

structure TrelloChecklist where
  IDChecklist : Str
  IDBoard : Str
  IDCard : Str
  Name : Str
  Position : Rat
  CheckItems : List CheckItem
  deriving DecidableEq, Repr

structure TrelloMember where
  AvatarHash : Str
  Bio : Str
  BioData : Str
  Confirmed : Bool
  FullName : Str
  IDMember : Str
  IDPremOrgsAdmin : Str
  Initials : Str
  MemberType : Str
  Products : List Int
  Status : Str
  URL : Str
  UserName : Str
  deriving DecidableEq, Repr

/-- What `prepareQuery` builds: the path and, when a query map was given, its
entries followed by the credentials. `url.Values.Encode` orders the entries by
key, so the order kept here is not observable. -/
structure URL where
  Scheme : Str
  Host : Str
  Path : Str
  Query : List (Str × Str)
  deriving DecidableEq, Repr

/-! ## The surroundings of the program -/

/-- The collaborators of the program. A transport field stands for
`HTTPClient.Get` followed by `processResponse` into the given result type: the
decoded value and the error. -/
structure Env where
  /-- The rune mapping `unicode.ToLower`. -/
  toLower : Char → Char
  /-- The rune mapping `unicode.ToUpper`. -/
  toUpper : Char → Char
  /-- The function `strings.Title`. -/
  Title : Str → Str
  /-- The function `strconv.Quote`. -/
  Quote : Str → Str
  /-- The call `strconv.FormatFloat(x, 'g', 2, 64)`. -/
  FormatFloat : Rat → Str
  /-- The method `(*url.URL).String`. -/
  URLString : URL → Str
  /-- The output of `fmt.Printf(format)` with no operands. -/
  Printf0 : Str → Str
  /-- The function `os.ExpandEnv` on `$NAME`: the value of the variable `NAME`. -/
  Getenv : Str → Str
  /-- Whether `os.Stat` finds the name and it is not a directory. -/
  isFile : Str → Bool
  /-- The function `ioutil.ReadFile`. -/
  ReadFile : Str → Str × Option GoError
  getNames : URL → TrelloNameList × Option GoError
  getMembers : URL → List TrelloMember × Option GoError
  getComments : URL → List TrelloCardComment × Option GoError
  getChecklists : URL → List TrelloChecklist × Option GoError
  getSearch : URL → List TrelloCardSearchResult × Option GoError
  /-- The function `json.Marshal` on the cards. -/
  marshalCards : List TrelloCardSearchResult → Str × Option GoError
  /-- The function `json.Marshal` on the members. -/
  marshalMembers : List TrelloMember → Str × Option GoError
  /-- The bytes `(*xlsx.File).Write` sends to standard output for a workbook
  whose one sheet has these rows of cell values, and its error. -/
  xlsxWrite : List (List Str) → Str × Option GoError

/-- The function `strings.ToLower`. -/
def ToLower (env : Env) (s : Str) : Str := s.map env.toLower

/-- The function `strings.ToUpper`. -/
def ToUpper (env : Env) (s : Str) : Str := s.map env.toUpper

/-! ## Name index lookups and transport calls -/

def IDFromName (env : Env) (name : Str) : TrelloNameList → Str
  | [] => []
  | v :: rest =>
    if ToUpper env v.Name = ToUpper env name then v.ID else IDFromName env name rest

def NameFromID (theID : Str) : TrelloNameList → Str
  | [] => []
  | v :: rest => if v.ID = theID then v.Name else NameFromID theID rest

def prepareQuery (client : TrelloClient) (path : Str) (query : Option (List (Str × Str))) : URL :=
  { Scheme := "https".toList
    Host := "api.trello.com".toList
    Path := path
    Query :=
      match query with
      | none => []
      | some q => q ++ [("key".toList, client.TrelloKey), ("token".toList, client.TrelloToken)] }

def ListNames (env : Env) (client : TrelloClient) (boardID : Str) : TrelloNameList × Option GoError :=
  env.getNames (prepareQuery client ("/1/boards/".toList ++ TrimSpace boardID ++ "/lists".toList)
    (some [("fields".toList, "name".toList)]))

def BoardNames (env : Env) (client : TrelloClient) (memberID : Str) : TrelloNameList × Option GoError :=
  env.getNames (prepareQuery client ("/1/members/".toList ++ TrimSpace memberID ++ "/boards".toList)
    (some [("fields".toList, "name".toList)]))

def BoardMembers (env : Env) (client : TrelloClient) (boardID : Str) : List TrelloMember × Option GoError :=
  env.getMembers (prepareQuery client ("/1/board/".toList ++ TrimSpace boardID ++ "/members".toList)
    (some [("fields".toList, "all".toList)]))

def CardComments (env : Env) (client : TrelloClient) (cardID : Str) : List TrelloCardComment × Option GoError :=
  env.getComments (prepareQuery client ("/1/card/".toList ++ TrimSpace cardID ++ "/actions".toList)
    (some [("filter".toList, "commentCard".toList)]))

def CardChecklists (env : Env) (client : TrelloClient) (cardID : Str) : List TrelloChecklist × Option GoError :=
  env.getChecklists (prepareQuery client ("/1/card/".toList ++ TrimSpace cardID ++ "/checklists".toList)
    (some [("fields".toList, "name,idBoard,idCard".toList)]))

/-! ## Field projector -/

/-- The quoting step that ends each round of the projection loops. -/
def quoteItem (config : RuntimeConfig) (item : Str) : Str :=
  if config.QuoteChar ≠ [] then config.QuoteChar ++ item ++ config.QuoteChar else item

/-- The `switch` of `buildOutputLine`: the item for the lowercased, trimmed
field name `v`; a name without a case leaves `item` at its zero value. -/
def cardItem (env : Env) (client : TrelloClient) (card : TrelloCardSearchResult) (v : Str) : Str :=
  if v = "id".toList then card.ID
  else if v = "attachmentcount".toList then Itoa card.Badges.Attachments
  else if v = "checked".toList then
    Itoa card.Badges.CheckItemsChecked ++ "/".toList ++ Itoa card.Badges.CheckItems
  else if v = "commentcount".toList then Itoa card.Badges.Comments
  else if v = "hasdesc".toList then FormatBool card.Badges.Description
  else if v = "closed".toList then FormatBool card.Closed
  else if v = "datelastactivity".toList then card.DateLastActivity
  else if v = "desc".toList then card.Desc
  else if v = "due".toList then card.Due
  else if v = "email".toList then card.Email
  else if v = "idattachmentcover".toList then card.IDAttachmentCover
  else if v = "idboard".toList then card.IDBoard
  else if v = "labels".toList then
    let labels := card.Labels.foldl
      (fun labels v =>
        let s := v.Name
        let s := if s = [] then ToUpper env v.Color else s
        labels ++ ["[".toList ++ s ++ "]".toList]) []
    Join labels " ".toList
  else if v = "labelcolors".toList then
    let labels := card.Labels.foldl
      (fun labels v =>
        let s := ToUpper env v.Color
        labels ++ ["[".toList ++ s ++ "]".toList]) []
    Join labels " ".toList
  else if v = "idlist".toList then card.IDList
  else if v = "listname".toList then
    let s := NameFromID card.IDBoard client.TrelloBoards
    if s ≠ [] then
      let s := ToLower env s
      NameFromID card.IDList (client.TrelloLists s)
    else s
  else if v = "boardname".toList then NameFromID card.IDBoard client.TrelloBoards
  else if v = "idshort".toList then Itoa card.IDShort
  else if v = "name".toList then card.Name
  else if v = "pos".toList then env.FormatFloat card.Pos
  else if v = "shortlink".toList then card.ShortLink
  else if v = "shorturl".toList then card.ShortURL
  else if v = "subscribed".toList then FormatBool card.Subscribed
  else if v = "comments".toList then
    let item : Str := []
    if card.Badges.Comments > 0 then
      match CardComments env client card.ID with
      | (comments, none) =>
        comments.foldl
          (fun item comment =>
            item ++ ("@".toList ++ comment.MemberCreator.UserName ++ " on ".toList ++ comment.Date
              ++ ": ".toList ++ Replace comment.Data.Text "\n".toList "\\n".toList ++ "\n".toList))
          item
      | (_, some err) => "[Could not read comments for card] ".toList ++ err.Error env.Quote
    else item
  else if v = "url".toList then card.URL
  else []

def buildOutputLine (env : Env) (client : TrelloClient) (card : TrelloCardSearchResult) : List Str :=
  let list := Split client.config.SearchResultFields ",".toList
  list.foldl
    (fun result v =>
      let v := TrimSpace (ToLower env v)
      let item := cardItem env client card v
      let item := quoteItem client.config item
      result ++ [item])
    []

/-- The `switch` of `buildMemberSlice`. -/
def memberItem (member : TrelloMember) (v : Str) : Str :=
  if v = "id".toList then member.IDMember
  else if v = "url".toList then member.URL
  else if v = "avatarhash".toList then member.AvatarHash
  else if v = "bio".toList then Replace member.Bio "\n".toList "\\n".toList
  else if v = "confirmed".toList then FormatBool member.Confirmed
  else if v = "fullname".toList then member.FullName
  else if v = "idmember".toList then member.IDMember
  else if v = "initials".toList then member.Initials
  else if v = "membertype".toList then member.MemberType
  else if v = "status".toList then member.Status
  else if v = "name".toList then member.UserName
  else []

def buildMemberSlice (env : Env) (client : TrelloClient) (member : TrelloMember) : List Str :=
  let list := Split client.config.SearchResultFields ",".toList
  list.foldl
    (fun result v =>
      let v := TrimSpace (ToLower env v)
      let item := memberItem member v
      let item := quoteItem client.config item
      result ++ [item])
    []

/-- The case labels of the `switch` of `buildOutputLine`. -/
def cardFieldNames : List Str :=
  ["id", "attachmentcount", "checked", "commentcount", "hasdesc", "closed", "datelastactivity",
   "desc", "due", "email", "idattachmentcover", "idboard", "labels", "labelcolors", "idlist",
   "listname", "boardname", "idshort", "name", "pos", "shortlink", "shorturl", "subscribed",
   "comments", "url"].map String.toList

/-- The client with another field list configured. -/
def withFields (client : TrelloClient) (fields : Str) : TrelloClient :=
  { client with config := { client.config with SearchResultFields := fields } }

/-- The client with another quote character configured. -/
def withQuoteChar (client : TrelloClient) (q : Str) : TrelloClient :=
  { client with config := { client.config with QuoteChar := q } }


/-! ## Output renderers -/

/-- The client together with what the run has written to standard output. -/
structure State where
  client : TrelloClient
  stdout : Str

/-- The call `fmt.Print(s)` for one string operand. -/
def Print (st : State) (s : Str) : State :=
  { st with stdout := st.stdout ++ s }

/-- The call `fmt.Println(s)` for one string operand. -/
def Println (st : State) (s : Str) : State :=
  Print st (s ++ "\n".toList)

/-- Padding of the verbs `%4d` and `%2d`: spaces in front up to the width. -/
def padLeft (width : Nat) (s : Str) : Str :=
  List.replicate (width - s.length) ' ' ++ s

/-- Padding of the verbs `%-25s` and `%-20s`: spaces behind up to the width. -/
def padRight (width : Nat) (s : Str) : Str :=
  s ++ List.replicate (width - s.length) ' '

/-- The lines `formatterText` prints for the check items of one checklist,
`i` being the index of the first of them. -/
def printCheckItems (st : State) : List CheckItem → Nat → State
  | [], _ => st
  | v :: rest, i =>
    let s := padLeft 2 (Itoa (i + 1)) ++ ": ".toList ++ v.Name ++ " ".toList
    let s := if v.State = "complete".toList then s ++ " ✅ (done)".toList else s
    printCheckItems (Println st s) rest (i + 1)

/-- The body of the card loop of `formatterText`, for the card at index `i`.
The lookups `header[i]` and `cols[i]` are written with a default, which is
never used: `i` ranges over the header, and `cols` has the header's length. -/
def formatterTextCard (env : Env) (header : List Str) (st : State) (i : Nat)
    (card : TrelloCardSearchResult) : State :=
  let st := if st.client.config.NumberOutput then Print st (padLeft 4 (Itoa i) ++ " ".toList) else st
  let cols := buildOutputLine env st.client card
  let st := (List.range header.length).foldl
    (fun st i =>
      let st := Print st (padRight 25 (env.Title (header.getD i [])) ++ ": ".toList)
      let st := if ToLower env (header.getD i []) = "comments".toList then Println st [] else st
      Println st (cols.getD i []))
    st
  let st :=
    if card.Badges.CheckItems > 0 then
      match CardChecklists env st.client card.ID with
      | (_, some err) =>
        Println st ("[Could not read checklist items for card] ".toList ++ " ".toList
          ++ err.Error env.Quote)
      | (chklists, none) =>
        let st := Println st "Checklists".toList
        let st := chklists.foldl
          (fun st chklist => printCheckItems (Println st chklist.Name) chklist.CheckItems 0) st
        Println st []
    else st
  Println st "--------".toList

/-- The card loop of `formatterText`, from index `i` on. -/
def formatterTextLoop (env : Env) (header : List Str) (st : State) :
    List TrelloCardSearchResult → Nat → State
  | [], _ => st
  | card :: rest, i => formatterTextLoop env header (formatterTextCard env header st i card) rest (i + 1)

/-- A renderer returns its error, the records as it leaves them (it holds
pointers to them) and the new state. -/
def formatterText (env : Env) (st : State) (cards : List TrelloCardSearchResult) :
    Option GoError × List TrelloCardSearchResult × State :=
  let st := Print st ("Found ".toList ++ Itoa cards.length ++ " cards\n".toList)
  let st := Println st []
  let header := Split st.client.config.SearchResultFields ",".toList
  (none, cards, formatterTextLoop env header st cards 0)

def formatterCsv (env : Env) (st : State) (cards : List TrelloCardSearchResult) :
    Option GoError × List TrelloCardSearchResult × State :=
  let header := Join (Split st.client.config.SearchResultFields ",".toList) st.client.config.ColSep
  let st := Println st header
  let (done, st) := cards.foldl
    (fun (acc : List TrelloCardSearchResult × State) card =>
      let (done, st) := acc
      let card := { card with Desc := Replace card.Desc "\n".toList "\\n".toList }
      let colbuf := buildOutputLine env st.client card
      let st := Print st (Join colbuf st.client.config.ColSep)
      let st := Print st st.client.config.RowSep
      (done ++ [card], st))
    ([], st)
  (none, done, st)

def formatterJSON (env : Env) (st : State) (cards : List TrelloCardSearchResult) :
    Option GoError × List TrelloCardSearchResult × State :=
  match env.marshalCards cards with
  | (doc, none) =>
    let st := Print st doc
    let st := Print st st.client.config.RowSep
    (none, cards, st)
  | (_, some err) => (some err, cards, st)

def formatterExcel (env : Env) (st : State) (cards : List TrelloCardSearchResult) :
    Option GoError × List TrelloCardSearchResult × State :=
  let st := { st with client := withQuoteChar st.client [] }
  let rows := cards.foldl (fun rows card => rows ++ [buildOutputLine env st.client card]) []
  match env.xlsxWrite rows with
  | (bytes, none) => (none, cards, Print st bytes)
  | (bytes, some err) => (some err, cards, Print (Print st bytes) (env.Printf0 (err.Error env.Quote)))

/-- The label loop of `formatterMarkdown`: the labels as it leaves them and
the text `s` of the badges. -/
def markdownLabels (env : Env) (labels : List TrelloLabel) : List TrelloLabel × Str :=
  labels.foldl
    (fun (acc : List TrelloLabel × Str) label =>
      let (done, s) := acc
      let label :=
        if label.Name = [] then
          { label with Name := "[".toList ++ ToUpper env label.Color ++ "]".toList }
        else label
      let s := s ++ ("<span style=\"background-color: ".toList ++ label.Color ++ ";\">".toList
        ++ label.Name ++ "</span> ".toList)
      (done ++ [label], s))
    ([], [])

/-- The body of the card loop of `formatterMarkdown`. -/
def formatterMarkdownCard (env : Env) (st : State) (card : TrelloCardSearchResult) :
    TrelloCardSearchResult × State :=
  let linebuf : List Str := []
  let linebuf := linebuf ++ ["# ".toList ++ TrimSpace card.Name]
  let (labels, s) := markdownLabels env card.Labels
  let card := { card with Labels := labels }
  let linebuf := linebuf ++ [s]
  let linebuf := linebuf ++ [[]]
  let linebuf := linebuf ++ ["## Description".toList]
  let linebuf := linebuf ++ [card.Desc]
  let linebuf :=
    if card.Badges.Comments > 0 then
      match CardComments env st.client card.ID with
      | (comments, none) =>
        let linebuf := linebuf ++ [[]]
        let linebuf := linebuf ++ ["## Card Comments".toList]
        comments.foldl
          (fun linebuf comment =>
            linebuf ++ [[]]
              ++ ["### ".toList ++ comment.Date ++ " from @".toList ++ comment.MemberCreator.UserName]
              ++ [[]] ++ [comment.Data.Text] ++ [[]])
          linebuf
      | (_, some err) =>
        linebuf ++ ["[Could not read comments for card] ".toList, err.Error env.Quote]
    else linebuf
  let linebuf :=
    if card.Badges.CheckItems > 0 then
      match CardChecklists env st.client card.ID with
      | (_, some err) =>
        linebuf ++ ["[Could not read checklist items for card] ".toList, err.Error env.Quote]
      | (chklists, none) =>
        let linebuf := linebuf ++ [[]]
        let linebuf := linebuf ++ ["## Checklists".toList]
        let linebuf := chklists.foldl
          (fun linebuf chklist =>
            chklist.CheckItems.foldl
              (fun linebuf v =>
                let s := " 1. ".toList ++ v.Name
                let s := if v.State = "complete".toList then s ++ " &#x2705; (done)".toList else s
                linebuf ++ [s])
              (linebuf ++ ["### ".toList ++ chklist.Name]))
          linebuf
        linebuf ++ [[]]
    else linebuf
  let linebuf := linebuf ++ ["## Card Info".toList]
  let linebuf := linebuf ++ [" * last activity on ".toList ++ card.DateLastActivity]
  let linebuf := if card.Due ≠ [] then linebuf ++ [" * due on ".toList ++ card.Due] else linebuf
  let linebuf := linebuf ++
    [" * card shortUrl [".toList ++ card.ShortURL ++ "](".toList ++ card.ShortURL ++ ")".toList]
  let boardName := NameFromID card.IDBoard st.client.TrelloBoards
  let linebuf := linebuf ++ [" * board ".toList ++ boardName]
  let linebuf := linebuf ++
    [" * list ".toList ++ NameFromID card.IDList (st.client.TrelloLists (ToLower env boardName))]
  let linebuf := linebuf ++ [[]]
  let linebuf := linebuf ++ [[]]
  let st := Print st (Join linebuf "\n".toList)
  let st := Print st st.client.config.RowSep
  (card, st)

def formatterMarkdown (env : Env) (st : State) (cards : List TrelloCardSearchResult) :
    Option GoError × List TrelloCardSearchResult × State :=
  let (done, st) := cards.foldl
    (fun (acc : List TrelloCardSearchResult × State) card =>
      let (done, st) := acc
      let (card, st) := formatterMarkdownCard env st card
      (done ++ [card], st))
    ([], st)
  (none, done, st)

def memberFormatterJSON (env : Env) (st : State) (members : List TrelloMember) :
    Option GoError × List TrelloMember × State :=
  match env.marshalMembers members with
  | (doc, none) =>
    let st := Print st doc
    let st := Print st st.client.config.RowSep
    (none, members, st)
  | (_, some err) => (some err, members, st)

def memberFormatterText (env : Env) (st : State) (members : List TrelloMember) :
    Option GoError × List TrelloMember × State :=
  let header := Split st.client.config.SearchResultFields ",".toList
  let st := Println st ("[".toList ++ Join header " ".toList ++ "]".toList)
  let st := members.foldl
    (fun st member =>
      let colbuf := buildMemberSlice env st.client member
      let st := (List.range header.length).foldl
        (fun st i =>
          Print st (padRight 20 (header.getD i []) ++ " : ".toList ++ colbuf.getD i [] ++ "\n".toList))
        st
      let st := Print st "--------".toList
      Print st st.client.config.RowSep)
    st
  (none, members, st)

def memberFormatterCsv (env : Env) (st : State) (members : List TrelloMember) :
    Option GoError × List TrelloMember × State :=
  let header := Join (Split st.client.config.SearchResultFields ",".toList) st.client.config.ColSep
  let st := Println st header
  let (done, st) := members.foldl
    (fun (acc : List TrelloMember × State) member =>
      let (done, st) := acc
      let member := { member with Bio := Replace member.Bio "\n".toList "\\n".toList }
      let colbuf := buildMemberSlice env st.client member
      let st := Print st (Join colbuf st.client.config.ColSep)
      let st := Print st st.client.config.RowSep
      (done ++ [member], st))
    ([], st)
  (none, done, st)

def memberFormatterExcel (env : Env) (st : State) (members : List TrelloMember) :
    Option GoError × List TrelloMember × State :=
  let st := { st with client := withQuoteChar st.client [] }
  let header := Split st.client.config.SearchResultFields ",".toList
  let rows := [header.foldl (fun row column => row ++ [env.Title column]) []]
  let rows := members.foldl (fun rows member => rows ++ [buildMemberSlice env st.client member]) rows
  match env.xlsxWrite rows with
  | (bytes, none) => (none, members, Print st bytes)
  | (bytes, some err) =>
    (some err, members, Print (Print st bytes) (env.Printf0 (err.Error env.Quote)))

def memberFormatterMarkdown (env : Env) (st : State) (members : List TrelloMember) :
    Option GoError × List TrelloMember × State :=
  let header := Split st.client.config.SearchResultFields ",".toList
  let st := members.foldl
    (fun st member =>
      let colbuf := buildMemberSlice env st.client member
      let st := Println st ("## ".toList ++ member.FullName)
      let st := Println st []
      let st := (List.range header.length).foldl
        (fun st i =>
          Print st (env.Printf0 (" * ".toList ++ env.Title (header.getD i []) ++ ": ".toList
            ++ colbuf.getD i [] ++ "\n".toList)))
        st
      Print st st.client.config.RowSep)
    st
  (none, members, st)

def outputCards (env : Env) (st : State) (cards : List TrelloCardSearchResult) (format : Str) :
    Option GoError × List TrelloCardSearchResult × State :=
  let f := ToLower env format
  if f = "text".toList then formatterText env st cards
  else if f = "csv".toList then formatterCsv env st cards
  else if f = "json".toList then formatterJSON env st cards
  else if f = "excel".toList then formatterExcel env st cards
  else if f = "markdown".toList then formatterMarkdown env st cards
  else (some (.errorString "INVALID_OUTPUT_FORMAT".toList), cards, st)

def outputMembers (env : Env) (st : State) (cards : List TrelloMember) (format : Str) :
    Option GoError × List TrelloMember × State :=
  let f := ToLower env format
  if f = "text".toList then memberFormatterText env st cards
  else if f = "csv".toList then memberFormatterCsv env st cards
  else if f = "json".toList then memberFormatterJSON env st cards
  else if f = "excel".toList then memberFormatterExcel env st cards
  else if f = "markdown".toList then memberFormatterMarkdown env st cards
  else (some (.errorString "INVALID_OUTPUT_FORMAT".toList), cards, st)

/-! ## Query preprocessor -/

/-- The client with its configuration replaced. -/
def withConfig (client : TrelloClient) (config : RuntimeConfig) : TrelloClient :=
  { client with config := config }

def handleAtCommand (env : Env) (client : TrelloClient) (command : Str) :
    Option GoError × TrelloClient :=
  let command := ToLower env command
  let cmd := (Split command " ".toList).headD []
  let parms := TrimSpace (Replace command cmd [])
  if cmd = "@fields".toList then
    (none, withConfig client { client.config with SearchResultFields := parms })
  else if cmd = "@format".toList then
    (none, withConfig client { client.config with Format := parms })
  else if cmd = "@colsep".toList then
    (none, withConfig client { client.config with ColSep := parms })
  else if cmd = "@rowsep".toList then
    (none, withConfig client { client.config with RowSep := parms })
  else if cmd = "@limit".toList then
    ((Atoi parms).2, withConfig client { client.config with CardLimit := (Atoi parms).1 })
  else (none, client)

/-- The line loop of `parseQuery`: `query` is the text gathered so far. -/
def parseLines (env : Env) : List Str → Str → TrelloClient → (Str × Option GoError) × TrelloClient
  | [], query, client => ((query, none), client)
  | line :: rest, query, client =>
    let line := TrimSpace line
    let line := (Split line "//".toList).headD []
    if line ≠ [] then
      if line.head? = some '@' then
        match handleAtCommand env client line with
        | (some err, client) => (([], some err), client)
        | (none, client) => parseLines env rest query client
      else parseLines env rest (query ++ line ++ " ".toList) client
    else parseLines env rest query client

def parseQuery (env : Env) (client : TrelloClient) (queryString : Str) :
    (Str × Option GoError) × TrelloClient :=
  let lines := Split queryString "\n".toList
  parseLines env lines [] client

def loadQuery (env : Env) (client : TrelloClient) (filename : Str) :
    (Str × Option GoError) × TrelloClient :=
  match env.ReadFile filename with
  | (_, some err) => (([], some err), client)
  | (data, none) => parseQuery env client data

/-! ## Commands -/

def SearchCards (env : Env) (st : State) (query : Str) (limit : Int) :
    (List TrelloCardSearchResult × Option GoError) × State :=
  let q := [("modelTypes".toList, "cards".toList), ("card_fields".toList, "all".toList),
    ("cards_limit".toList, Itoa limit), ("query".toList, query)]
  let theURL := prepareQuery st.client "/1/search".toList (some q)
  let st := Println st (env.URLString theURL)
  (env.getSearch theURL, st)

/-- The command `search`; `args` are the command-line arguments left after
the flags (`flag.Args()`), the last of which is the query or the file name. -/
def cmdSearch (env : Env) (st : State) (args : List Str) : Option GoError × State :=
  let query := args.getLastD []
  let limit := st.client.config.CardLimit
  let loaded : (Str × Option GoError) × TrelloClient :=
    if env.isFile query then loadQuery env st.client query else ((query, none), st.client)
  match loaded with
  | ((_, some err), client) =>
    let st := { st with client := client }
    (some err, Println st ("Could not load query:".toList ++ " ".toList ++ err.Error env.Quote))
  | ((query, none), client) =>
    let st := { st with client := client }
    match SearchCards env st query limit with
    | ((_, some err), st) =>
      (some err, Println st ("Error searching for cards:".toList ++ " ".toList ++ err.Error env.Quote))
    | ((cards, none), st) =>
      match outputCards env st cards st.client.config.Format with
      | (some err, _, st) =>
        (some err,
          Println st ("Error writing search result:".toList ++ " ".toList ++ err.Error env.Quote))
      | (none, _, st) => (none, st)

def cmdMembers (env : Env) (st : State) (args : List Str) : Option GoError × State :=
  let board := args.getLastD []
  let boardID := IDFromName env board st.client.TrelloBoards
  match BoardMembers env st.client boardID with
  | (_, some err) => (some err, st)
  | (members, none) =>
    match outputMembers env st members st.client.config.Format with
    | (err, _, st) => (err, st)

def cmdBoards (env : Env) (st : State) : Option GoError × State :=
  let format := ToLower env st.client.config.Format
  let err : Option GoError :=
    if format = "excel".toList ∨ format = "markdown".toList ∨ format = "json".toList then
      some (.errorString "Format not supported for this operation.".toList)
    else none
  let st := st.client.TrelloBoards.foldl
    (fun st board =>
      let st := Println st ("Board".toList ++ st.client.config.ColSep ++ board.Name
        ++ st.client.config.ColSep ++ board.ID)
      let st := (st.client.TrelloLists (ToLower env board.Name)).foldl
        (fun st list =>
          Println st ("List".toList ++ st.client.config.ColSep ++ list.Name
            ++ st.client.config.ColSep ++ list.ID))
        st
      Println st [])
    st
  (err, st)

/-! ## Name index -/

/-- The assignment `client.TrelloLists[key] = value`. -/
def setLists (client : TrelloClient) (key : Str) (value : TrelloNameList) : TrelloClient :=
  { client with TrelloLists := fun k => if k = key then value else client.TrelloLists k }

/-- The board loop of `loadBoardInfo`. -/
def loadLists (env : Env) : List TrelloName → TrelloClient → Option GoError × TrelloClient
  | [], client => (none, client)
  | v :: rest, client =>
    let boardName := ToLower env v.Name
    let client := setLists client boardName []
    match ListNames env client v.ID with
    | (_, some err) => (some err, client)
    | (tmp, none) =>
      let client := tmp.foldl
        (fun client v => setLists client boardName (client.TrelloLists boardName ++ [v])) client
      loadLists env rest client

def loadBoardInfo (env : Env) (client : TrelloClient) : Option GoError × TrelloClient :=
  let trelloUser := env.Getenv "TRELLO_USER".toList
  let trelloUser := if trelloUser = [] then "me".toList else trelloUser
  match BoardNames env client trelloUser with
  | (boards, some err) => (some err, { client with TrelloBoards := boards })
  | (boards, none) =>
    let client := { client with TrelloBoards := boards }
    loadLists env client.TrelloBoards client

/-! ## Client construction and usage text -/

/-- How a call that may end the process comes back: with its value, or not at
all, the process having ended with the given exit status. -/
inductive Outcome (α : Type) where
  | returned (value : α)
  | exited (status : Int)

/-- The function `newTrelloClient`, with what it writes appended to the
standard output `stdout` it starts from. A call of `os.Exit` ends the run, so
nothing after it is executed. -/
def newTrelloClient (env : Env) (stdout : Str) : Outcome TrelloClient × Str :=
  let client : TrelloClient :=
    { TrelloKey := [], TrelloToken := [], TrelloBoards := [], TrelloLists := fun _ => [],
      config :=
        { ShowUsage := false, Command := [], SearchResultFields := [], ColSep := [], RowSep := [],
          QuoteChar := [], CardLimit := 0, NumberOutput := false, Format := [], BoardName := [],
          ListName := [] } }
  let key := env.Getenv "TRELLO_KEY".toList
  if key = [] then
    (.exited 1, stdout ++ "TRELLO_KEY environment variable not set, exiting.".toList ++ "\n".toList)
  else
    let client := { client with TrelloKey := key }
    let tok := env.Getenv "TRELLO_TOKEN".toList
    if key = [] then
      (.exited 1,
        stdout ++ "TRELLO_TOKEN environment variable not set, exiting.".toList ++ "\n".toList)
    else
      let client := { client with TrelloToken := tok }
      (.returned client, stdout)

/-- The lines under `List of field names:` in the text `showUsage` prints (the
same in `tres.go` and `cmd/tres/main.go`). -/
def usageFieldLines : List Str :=
  ["    attachmentcount     hasdesc             labelcolors",
   "    boardname           id                  labels",
   "    checked             idattachmentcover   listname",
   "    closed              idboard             name",
   "    commentcount        idchecklists        pos",
   "    comments            idlabels            shortlink",
   "    datelastactivity    idlist              shorturl",
   "    desc                idmembers           subscribed",
   "    due                 idmembersvoted      url",
   "    email               idshort"].map String.toList

/-- The field names the usage text lists: the words of `usageFieldLines`. -/
def usageFieldNames : List Str :=
  usageFieldLines.flatMap (fun line => (Split line " ".toList).filter (fun word => word ≠ []))

/-! ## A concrete environment -/

/-- An environment to evaluate the program in: ASCII case mapping, no file, no
environment variable, and a transport that fails every request. -/
def offlineEnv : Env where
  toLower := Char.toLower
  toUpper := Char.toUpper
  Title := fun s => s
  Quote := fun s => "\"".toList ++ s ++ "\"".toList
  FormatFloat := fun _ => "0".toList
  URLString := fun u =>
    u.Scheme ++ "://".toList ++ u.Host ++ u.Path ++ "?".toList
      ++ Join (u.Query.map (fun kv => kv.1 ++ "=".toList ++ kv.2)) "&".toList
  Printf0 := fun s => s
  Getenv := fun _ => []
  isFile := fun _ => false
  ReadFile := fun _ => ([], some (.errorString "no such file".toList))
  getNames := fun _ => ([], some (.errorString "offline".toList))
  getMembers := fun _ => ([], some (.errorString "offline".toList))
  getComments := fun _ => ([], some (.errorString "offline".toList))
  getChecklists := fun _ => ([], some (.errorString "offline".toList))
  getSearch := fun _ => ([], some (.errorString "offline".toList))
  marshalCards := fun _ => ("[]".toList, none)
  marshalMembers := fun _ => ("[]".toList, none)
  xlsxWrite := fun _ => ([], none)

/-- The configuration the command-line flags default to. -/
def defaultConfig : RuntimeConfig where
  ShowUsage := false
  Command := []
  SearchResultFields := "name".toList
  ColSep := "\t".toList
  RowSep := "\n".toList
  QuoteChar := []
  CardLimit := 200
  NumberOutput := false
  Format := "text".toList
  BoardName := []
  ListName := []

/-- A client with the default configuration and an empty name index. -/
def emptyClient : TrelloClient where
  TrelloKey := "key".toList
  TrelloToken := "token".toList
  TrelloBoards := []
  TrelloLists := fun _ => []
  config := defaultConfig

/-- A card with every field at its zero value. -/
def emptyCard : TrelloCardSearchResult where
  ID := []
  Badges :=
    { Attachments := 0, CheckItems := 0, CheckItemsChecked := 0, Comments := 0,
      Description := false, Due := [], Fogbugz := [], Subscribed := false,
      ViewingMemberVoted := false, Votes := 0 }
  CheckItemStates := []
  Closed := false
  DateLastActivity := []
  Desc := []
  DescData := []
  Due := []
  Email := []
  IDAttachmentCover := []
  IDBoard := []
  IDChecklists := []
  IDLabels := []
  IDList := []
  IDMembers := []
  IDMembersVoted := []
  IDShort := 0
  Labels := []
  ManualCoverAttachment := false
  Name := []
  Pos := 0
  ShortLink := []
  ShortURL := []
  Subscribed := false
  URL := []

/-- A member with every field at its zero value. -/
def emptyMember : TrelloMember where
  AvatarHash := []
  Bio := []
  BioData := []
  Confirmed := false
  FullName := []
  IDMember := []
  IDPremOrgsAdmin := []
  Initials := []
  MemberType := []
  Status := []
  Products := []
  URL := []
  UserName := []

/-! ## Statements to compare the projector with -/

/-- The `listname` value in the words of the specification: the name of the
first entry with the card's list id in the list sequence stored under the
lowercased name of the first board with the card's board id; empty when there
is no such board or no such entry. -/
def listNameByIndex (env : Env) (client : TrelloClient) (card : TrelloCardSearchResult) : Str :=
  match client.TrelloBoards.find? (fun board => board.ID = card.IDBoard) with
  | none => []
  | some board =>
    match (client.TrelloLists (ToLower env board.Name)).find? (fun list => list.ID = card.IDList) with
    | none => []
    | some list => list.Name

/-- The same, with a board whose name is empty counted as a missing board. -/
def listNameByNamedBoard (env : Env) (client : TrelloClient) (card : TrelloCardSearchResult) : Str :=
  match client.TrelloBoards.find? (fun board => board.ID = card.IDBoard) with
  | none => []
  | some board => if board.Name = [] then [] else listNameByIndex env client card

/-- The environment with another answer of the transport to comment requests. -/
def withComments (env : Env) (getComments : URL → List TrelloCardComment × Option GoError) : Env :=
  { env with getComments := getComments }

/-- A transport that lists two boards whose names differ only in case, each
with one list of its own. -/
def twoBoardsEnv : Env :=
  { offlineEnv with
    getNames := fun u =>
      if u.Path = "/1/members/me/boards".toList then
        ([{ ID := "b1".toList, Name := "Work".toList }, { ID := "b2".toList, Name := "work".toList }],
          none)
      else if u.Path = "/1/boards/b1/lists".toList then
        ([{ ID := "l1".toList, Name := "Todo".toList }], none)
      else ([{ ID := "l2".toList, Name := "Done".toList }], none) }

/-- The query text of the specification's preprocessing example. -/
def exampleQuery : Str := "@format json\nfoo bar // comment\n@limit 5\nbaz".toList

/-- A file system holding the one query file `query.txt`, which sets a limit. -/
def queryFileEnv : Env :=
  { offlineEnv with
    isFile := fun name => name = "query.txt".toList
    ReadFile := fun name =>
      if name = "query.txt".toList then ("@limit 5\nlabel:urgent".toList, none)
      else ([], some (.errorString "no such file".toList)) }

/-! ## The markdown renderer in steps

The three parts of the body of the card loop of `formatterMarkdown` that extend
the line buffer after the description, each as a function of the buffer it
starts from. -/

/-- The lines appended for the comments of a card. -/
def markdownCommentLines (env : Env) (client : TrelloClient) (card : TrelloCardSearchResult)
    (linebuf : List Str) : List Str :=
  if card.Badges.Comments > 0 then
    match CardComments env client card.ID with
    | (comments, none) =>
      let linebuf := linebuf ++ [[]]
      let linebuf := linebuf ++ ["## Card Comments".toList]
      comments.foldl
        (fun linebuf comment =>
          linebuf ++ [[]]
            ++ ["### ".toList ++ comment.Date ++ " from @".toList ++ comment.MemberCreator.UserName]
            ++ [[]] ++ [comment.Data.Text] ++ [[]])
        linebuf
    | (_, some err) =>
      linebuf ++ ["[Could not read comments for card] ".toList, err.Error env.Quote]
  else linebuf

/-- The lines appended for the checklists of a card. -/
def markdownChecklistLines (env : Env) (client : TrelloClient) (card : TrelloCardSearchResult)
    (linebuf : List Str) : List Str :=
  if card.Badges.CheckItems > 0 then
    match CardChecklists env client card.ID with
    | (_, some err) =>
      linebuf ++ ["[Could not read checklist items for card] ".toList, err.Error env.Quote]
    | (chklists, none) =>
      let linebuf := linebuf ++ [[]]
      let linebuf := linebuf ++ ["## Checklists".toList]
      let linebuf := chklists.foldl
        (fun linebuf chklist =>
          chklist.CheckItems.foldl
            (fun linebuf v =>
              let s := " 1. ".toList ++ v.Name
              let s := if v.State = "complete".toList then s ++ " &#x2705; (done)".toList else s
              linebuf ++ [s])
            (linebuf ++ ["### ".toList ++ chklist.Name]))
        linebuf
      linebuf ++ [[]]
  else linebuf

/-- The lines appended for the trailing info block of a card. -/
def markdownInfoLines (env : Env) (client : TrelloClient) (card : TrelloCardSearchResult)
    (linebuf : List Str) : List Str :=
  let linebuf := linebuf ++ ["## Card Info".toList]
  let linebuf := linebuf ++ [" * last activity on ".toList ++ card.DateLastActivity]
  let linebuf := if card.Due ≠ [] then linebuf ++ [" * due on ".toList ++ card.Due] else linebuf
  let linebuf := linebuf ++
    [" * card shortUrl [".toList ++ card.ShortURL ++ "](".toList ++ card.ShortURL ++ ")".toList]
  let boardName := NameFromID card.IDBoard client.TrelloBoards
  let linebuf := linebuf ++ [" * board ".toList ++ boardName]
  let linebuf := linebuf ++
    [" * list ".toList ++ NameFromID card.IDList (client.TrelloLists (ToLower env boardName))]
  let linebuf := linebuf ++ [[]]
  linebuf ++ [[]]

/-- The label loop of `formatterMarkdown` on one label: the label as the loop
leaves it. -/
def markdownLabel (env : Env) (label : TrelloLabel) : TrelloLabel :=
  if label.Name = [] then
    { label with Name := "[".toList ++ ToUpper env label.Color ++ "]".toList }
  else label

/-- The text of newlines escaped, as `formatterCsv` and the projectors do it. -/
def escapeNewlines (s : Str) : Str := Replace s "\n".toList "\\n".toList

/-- A process environment in which only `TRELLO_KEY` is set. -/
def keyOnlyEnv : Env :=
  { offlineEnv with Getenv := fun name => if name = "TRELLO_KEY".toList then "k3y".toList else [] }

/-- A client that knows one board with one list and is configured for JSON. -/
def oneBoardJsonClient : TrelloClient :=
  { emptyClient with
    TrelloBoards := [{ ID := "b1".toList, Name := "Home".toList }]
    TrelloLists := fun k =>
      if k = "home".toList then [{ ID := "l1".toList, Name := "Todo".toList }] else []
    config := { defaultConfig with Format := "json".toList } }

/-- A card with a description of two lines and one label without a name. -/
def twoLineCard : TrelloCardSearchResult :=
  { emptyCard with
    Name := "Buy milk".toList
    Desc := "two\nlines".toList
    Labels := [{ Color := "red".toList, ID := "x1".toList, IDBoard := "b1".toList, Name := [], Uses := 1 }] }

/-! ## Lemmas on the library functions -/

theorem foldl_append_singleton {α β : Type} (f : α → β) (l : List α) (init : List β) :
    l.foldl (fun result v => result ++ [f v]) init = init ++ l.map f := by
  induction l generalizing init with
  | nil => simp
  | cons x xs ih => simp [ih]

theorem splitFrom_single_of_not_mem (c : Char) (s cur : Str) (h : c ∉ s) :
    splitFrom [c] s 0 cur = [cur.reverse ++ s] := by
  induction s generalizing cur with
  | nil => simp [splitFrom]
  | cons d ds ih =>
    have hd : c ≠ d := fun e => h (by simp [e])
    have hds : c ∉ ds := fun e => h (by simp [e])
    simp [splitFrom, List.isPrefixOf, hd, ih _ hds]

theorem splitFrom_single_not_mem (c : Char) (s cur : Str) (hcur : c ∉ cur) :
    ∀ seg ∈ splitFrom [c] s 0 cur, c ∉ seg := by
  induction s generalizing cur with
  | nil => simpa [splitFrom] using hcur
  | cons d ds ih =>
    intro seg hseg
    by_cases hd : c = d
    · subst hd
      simp [splitFrom, List.isPrefixOf] at hseg
      rcases hseg with rfl | hseg
      · simpa using hcur
      · exact ih [] (by simp) seg hseg
    · simp [splitFrom, List.isPrefixOf, hd] at hseg
      exact ih (d :: cur) (by simp [hd, hcur]) seg hseg

theorem Split_comma_of_mem (s seg : Str) (h : seg ∈ Split s ",".toList) :
    Split seg ",".toList = [seg] := by
  have h1 : ",".toList = [','] := rfl
  rw [h1] at h ⊢
  simp only [Split, List.cons_ne_nil, if_false] at h ⊢
  have := splitFrom_single_not_mem ',' s [] (by simp) seg h
  simpa using splitFrom_single_of_not_mem ',' seg [] this

/-! ## The projection loops as maps -/

theorem buildOutputLine_eq_map (env : Env) (client : TrelloClient) (card : TrelloCardSearchResult) :
    buildOutputLine env client card =
      (Split client.config.SearchResultFields ",".toList).map
        (fun v => quoteItem client.config (cardItem env client card (TrimSpace (ToLower env v)))) := by
  simp [buildOutputLine, foldl_append_singleton]

theorem buildMemberSlice_eq_map (env : Env) (client : TrelloClient) (member : TrelloMember) :
    buildMemberSlice env client member =
      (Split client.config.SearchResultFields ",".toList).map
        (fun v => quoteItem client.config (memberItem member (TrimSpace (ToLower env v)))) := by
  simp [buildMemberSlice, foldl_append_singleton]

theorem cardItem_of_not_mem (env : Env) (client : TrelloClient) (card : TrelloCardSearchResult)
    (v : Str) (h : v ∉ cardFieldNames) : cardItem env client card v = [] := by
  simp only [cardFieldNames, List.map, List.mem_cons, List.mem_nil_iff, or_false, not_or] at h
  obtain ⟨h1, h2, h3, h4, h5, h6, h7, h8, h9, h10, h11, h12, h13, h14, h15, h16, h17, h18, h19,
    h20, h21, h22, h23, h24, h25⟩ := h
  simp only [cardItem, h1, h2, h3, h4, h5, h6, h7, h8, h9, h10, h11, h12, h13, h14, h15, h16, h17,
    h18, h19, h20, h21, h22, h23, h24, h25, if_false]

/-! ## Field projector: one value per field name -/

/-- C1. For every card and field string, `buildOutputLine` returns as many
values as `SearchResultFields` has comma-separated segments, and the value at
position `i` is the single value that projecting the `i`-th segment alone
gives (so `cols[i]` is in range for every header index `i`). -/
theorem buildOutputLine_one_value_per_field (env : Env) (client : TrelloClient)
    (card : TrelloCardSearchResult) :
    (buildOutputLine env client card).length
        = (Split client.config.SearchResultFields ",".toList).length ∧
    ∀ i : Nat,
      ((Split client.config.SearchResultFields ",".toList)[i]?).map
          (fun name => buildOutputLine env (withFields client name) card)
        = ((buildOutputLine env client card)[i]?).map (fun value => [value]) := by
  constructor
  · simp [buildOutputLine_eq_map]
  · intro i
    rw [buildOutputLine_eq_map env client card, List.getElem?_map]
    cases hi : (Split client.config.SearchResultFields ",".toList)[i]? with
    | none => simp
    | some name =>
      have hmem : name ∈ Split client.config.SearchResultFields ",".toList :=
        List.getElem?_mem hi
      have hs := Split_comma_of_mem _ _ hmem
      simp only [Option.map_some', Option.some.injEq]
      rw [buildOutputLine_eq_map]
      show List.map _ (Split name ",".toList) = _
      rw [hs]
      rfl

/-- C5. A field name that, lowercased and trimmed, is none of the case labels
of the projector gives the empty string at its position, or the quote
character twice when one is configured; and whatever else the field list
holds, a position `j ≠ i` with the same name has the same value. -/
theorem unknown_field_projects_empty (env : Env) (client : TrelloClient)
    (card : TrelloCardSearchResult) (i : Nat) (name : Str)
    (hname : (Split client.config.SearchResultFields ",".toList)[i]? = some name)
    (hunknown : TrimSpace (ToLower env name) ∉ cardFieldNames) :
    (buildOutputLine env client card)[i]?
        = some (if client.config.QuoteChar = [] then []
                else client.config.QuoteChar ++ client.config.QuoteChar) ∧
    ∀ (fields : Str) (j : Nat), j ≠ i →
      (Split fields ",".toList)[j]? = (Split client.config.SearchResultFields ",".toList)[j]? →
      (buildOutputLine env (withFields client fields) card)[j]?
        = (buildOutputLine env client card)[j]? := by
  constructor
  · rw [buildOutputLine_eq_map, List.getElem?_map, hname]
    simp only [Option.map_some', cardItem_of_not_mem env client card _ hunknown, quoteItem]
    by_cases hq : client.config.QuoteChar = [] <;> simp [hq]
  · intro fields j _ hj
    rw [buildOutputLine_eq_map, buildOutputLine_eq_map, List.getElem?_map, List.getElem?_map]
    show Option.map _ (Split fields ",".toList)[j]? = _
    rw [hj]
    rfl

theorem unknown_field_projects_empty_witness :
    (buildOutputLine offlineEnv (withFields emptyClient "name, Colour ,id".toList)
        { emptyCard with Name := "Buy milk".toList, ID := "c1".toList })[1]? = some [] :=
  (unknown_field_projects_empty offlineEnv (withFields emptyClient "name, Colour ,id".toList)
    { emptyCard with Name := "Buy milk".toList, ID := "c1".toList } 1 " Colour ".toList
    (by decide) (by decide)).1

/-- C6. Every value `buildOutputLine` returns is the value it returns with an
empty `QuoteChar`, with the configured quote character on both sides; and
likewise for `buildMemberSlice`. -/
theorem quote_wraps_every_value (env : Env) (client : TrelloClient)
    (card : TrelloCardSearchResult) (member : TrelloMember) :
    buildOutputLine env client card
        = (buildOutputLine env (withQuoteChar client []) card).map
            (fun v => client.config.QuoteChar ++ v ++ client.config.QuoteChar) ∧
    buildMemberSlice env client member
        = (buildMemberSlice env (withQuoteChar client []) member).map
            (fun v => client.config.QuoteChar ++ v ++ client.config.QuoteChar) := by
  constructor
  · rw [buildOutputLine_eq_map, buildOutputLine_eq_map, List.map_map]
    apply List.map_congr_left
    intro v _
    by_cases hq : client.config.QuoteChar = []
    · simp [quoteItem, withQuoteChar, hq]; rfl
    · simp [quoteItem, withQuoteChar, hq]; rfl
  · rw [buildMemberSlice_eq_map, buildMemberSlice_eq_map, List.map_map]
    apply List.map_congr_left
    intro v _
    by_cases hq : client.config.QuoteChar = []
    · simp [quoteItem, withQuoteChar, hq]
    · simp [quoteItem, withQuoteChar, hq]

/-! ## Cross-references through the name index -/

theorem NameFromID_eq_find (theID : Str) (nameList : TrelloNameList) :
    NameFromID theID nameList
      = match nameList.find? (fun v => v.ID = theID) with
        | none => []
        | some v => v.Name := by
  induction nameList with
  | nil => rfl
  | cons v rest ih =>
    by_cases h : v.ID = theID
    · simp [NameFromID, List.find?, h]
    · simp [NameFromID, List.find?, h, ih]

theorem cardItem_listname (env : Env) (client : TrelloClient) (card : TrelloCardSearchResult) :
    cardItem env client card "listname".toList = listNameByNamedBoard env client card := by
  have hitem : cardItem env client card "listname".toList
      = if NameFromID card.IDBoard client.TrelloBoards ≠ [] then
          NameFromID card.IDList
            (client.TrelloLists (ToLower env (NameFromID card.IDBoard client.TrelloBoards)))
        else NameFromID card.IDBoard client.TrelloBoards := by
    simp [cardItem]
  rw [hitem, listNameByNamedBoard, listNameByIndex, NameFromID_eq_find card.IDBoard]
  cases hb : client.TrelloBoards.find? (fun board => board.ID = card.IDBoard) with
  | none => simp
  | some board =>
    by_cases hn : board.Name = []
    · simp [hn]
    · simp [hn, NameFromID_eq_find card.IDList]

/-- C9, as the claim states it, fails in two ways. For a board whose name is
empty the projector gives the empty string although the index holds the
card's list under that board's (empty) key; and with a quote character
configured the value is the list name inside quote characters. -/
theorem listname_counterexample :
    (buildOutputLine offlineEnv
        { emptyClient with
          TrelloBoards := [{ ID := "b1".toList, Name := [] }]
          TrelloLists := fun k => if k = [] then [{ ID := "l1".toList, Name := "Todo".toList }] else []
          config := { defaultConfig with SearchResultFields := "listname".toList } }
        { emptyCard with IDBoard := "b1".toList, IDList := "l1".toList } = [[]] ∧
      listNameByIndex offlineEnv
        { emptyClient with
          TrelloBoards := [{ ID := "b1".toList, Name := [] }]
          TrelloLists := fun k => if k = [] then [{ ID := "l1".toList, Name := "Todo".toList }] else []
          config := { defaultConfig with SearchResultFields := "listname".toList } }
        { emptyCard with IDBoard := "b1".toList, IDList := "l1".toList } = "Todo".toList) ∧
    (buildOutputLine offlineEnv
        { emptyClient with
          TrelloBoards := [{ ID := "b1".toList, Name := "Home".toList }]
          TrelloLists := fun k =>
            if k = "home".toList then [{ ID := "l1".toList, Name := "Todo".toList }] else []
          config :=
            { defaultConfig with SearchResultFields := "listname".toList, QuoteChar := "'".toList } }
        { emptyCard with IDBoard := "b1".toList, IDList := "l1".toList } = ["'Todo'".toList] ∧
      listNameByIndex offlineEnv
        { emptyClient with
          TrelloBoards := [{ ID := "b1".toList, Name := "Home".toList }]
          TrelloLists := fun k =>
            if k = "home".toList then [{ ID := "l1".toList, Name := "Todo".toList }] else []
          config :=
            { defaultConfig with SearchResultFields := "listname".toList, QuoteChar := "'".toList } }
        { emptyCard with IDBoard := "b1".toList, IDList := "l1".toList } = "Todo".toList) := by
  refine ⟨⟨by decide, by decide⟩, by decide, by decide⟩

/-- C9, amended. At every position whose field name is `listname`, the value
is (inside the configured quote characters) the name of the first entry with
the card's list id in the list sequence stored under the lowercased name of
the first board with the card's board id, if that board's name is not empty;
it is the empty string when there is no such board, when its name is empty,
or when there is no such entry. -/
theorem listname_projection (env : Env) (client : TrelloClient) (card : TrelloCardSearchResult)
    (i : Nat) (name : Str)
    (hname : (Split client.config.SearchResultFields ",".toList)[i]? = some name)
    (hlist : TrimSpace (ToLower env name) = "listname".toList) :
    (buildOutputLine env client card)[i]?
      = some (quoteItem client.config (listNameByNamedBoard env client card)) := by
  rw [buildOutputLine_eq_map, List.getElem?_map, hname]
  simp only [Option.map_some', hlist, cardItem_listname]

theorem listname_projection_witness :
    (buildOutputLine offlineEnv
        { emptyClient with
          TrelloBoards := [{ ID := "b1".toList, Name := "Home".toList }]
          TrelloLists := fun k =>
            if k = "home".toList then [{ ID := "l1".toList, Name := "Todo".toList }] else []
          config := { defaultConfig with SearchResultFields := "name, ListName".toList } }
        { emptyCard with IDBoard := "b1".toList, IDList := "l1".toList })[1]?
      = some "Todo".toList :=
  listname_projection offlineEnv
    { emptyClient with
      TrelloBoards := [{ ID := "b1".toList, Name := "Home".toList }]
      TrelloLists := fun k =>
        if k = "home".toList then [{ ID := "l1".toList, Name := "Todo".toList }] else []
      config := { defaultConfig with SearchResultFields := "name, ListName".toList } }
    { emptyCard with IDBoard := "b1".toList, IDList := "l1".toList } 1 " ListName".toList
    (by decide) (by decide)

/-! ## A failing comment fetch -/

theorem cardItem_withComments (env : Env) (client : TrelloClient) (card : TrelloCardSearchResult)
    (getComments : URL → List TrelloCardComment × Option GoError) (v : Str)
    (hv : v ≠ "comments".toList) :
    cardItem (withComments env getComments) client card v = cardItem env client card v := by
  simp only [cardItem, hv, if_false]
  rfl

theorem cardItem_comments_of_error (env : Env) (client : TrelloClient)
    (card : TrelloCardSearchResult) (e : GoError) (hpos : card.Badges.Comments > 0)
    (hfail : (CardComments env client card.ID).2 = some e) :
    cardItem env client card "comments".toList
      = "[Could not read comments for card] ".toList ++ e.Error env.Quote := by
  have hitem : cardItem env client card "comments".toList
      = if card.Badges.Comments > 0 then
          match CardComments env client card.ID with
          | (comments, none) =>
            comments.foldl
              (fun item comment =>
                item ++ ("@".toList ++ comment.MemberCreator.UserName ++ " on ".toList
                  ++ comment.Date ++ ": ".toList
                  ++ Replace comment.Data.Text "\n".toList "\\n".toList ++ "\n".toList))
              []
          | (_, some err) => "[Could not read comments for card] ".toList ++ err.Error env.Quote
        else [] := by
    simp [cardItem]
  rw [hitem, if_pos hpos]
  cases hc : CardComments env client card.ID with
  | mk comments err =>
    rw [hc] at hfail
    simp only at hfail
    subst hfail
    rfl

/-- C10, as the claim states it, fails when a quote character is configured:
the `comments` value is then the placeholder inside quote characters, not the
bare placeholder. -/
theorem comments_placeholder_quoted_counterexample :
    (CardComments offlineEnv
        (withConfig emptyClient
          { defaultConfig with SearchResultFields := "comments".toList, QuoteChar := "'".toList })
        "c1".toList).2 = some (.errorString "offline".toList) ∧
    buildOutputLine offlineEnv
        (withConfig emptyClient
          { defaultConfig with SearchResultFields := "comments".toList, QuoteChar := "'".toList })
        { emptyCard with ID := "c1".toList, Badges := { emptyCard.Badges with Comments := 1 } }
      = ["'[Could not read comments for card] offline'".toList] ∧
    buildOutputLine offlineEnv
        (withConfig emptyClient
          { defaultConfig with SearchResultFields := "comments".toList, QuoteChar := "'".toList })
        { emptyCard with ID := "c1".toList, Badges := { emptyCard.Badges with Comments := 1 } }
      ≠ ["[Could not read comments for card] offline".toList] := by
  refine ⟨by decide, by decide, by decide⟩

/-- C10, amended. For a card with a positive comment badge count whose comment
fetch fails with error `e`, `buildOutputLine` returns one value per requested
field; at a `comments` position the value is the placeholder
`[Could not read comments for card] ` followed by the message of `e`, inside
the configured quote characters; at every other position the value is the one
produced under any other answer of the transport to the comment request. -/
theorem comments_fetch_failure_degrades (env : Env) (client : TrelloClient)
    (card : TrelloCardSearchResult) (e : GoError)
    (hpos : card.Badges.Comments > 0)
    (hfail : (CardComments env client card.ID).2 = some e) :
    (buildOutputLine env client card).length
        = (Split client.config.SearchResultFields ",".toList).length ∧
    ∀ (i : Nat) (name : Str),
      (Split client.config.SearchResultFields ",".toList)[i]? = some name →
      (TrimSpace (ToLower env name) = "comments".toList →
        (buildOutputLine env client card)[i]?
          = some (quoteItem client.config
              ("[Could not read comments for card] ".toList ++ e.Error env.Quote))) ∧
      (TrimSpace (ToLower env name) ≠ "comments".toList →
        ∀ getComments : URL → List TrelloCardComment × Option GoError,
          (buildOutputLine (withComments env getComments) client card)[i]?
            = (buildOutputLine env client card)[i]?) := by
  constructor
  · simp [buildOutputLine_eq_map]
  · intro i name hname
    constructor
    · intro hc
      rw [buildOutputLine_eq_map, List.getElem?_map, hname]
      simp only [Option.map_some', hc, cardItem_comments_of_error env client card e hpos hfail]
    · intro hc getComments
      rw [buildOutputLine_eq_map, buildOutputLine_eq_map, List.getElem?_map, List.getElem?_map,
        hname]
      simp only [Option.map_some']
      have hlow : ToLower (withComments env getComments) name = ToLower env name := rfl
      rw [hlow, cardItem_withComments env client card getComments _ hc]

theorem comments_fetch_failure_degrades_witness :
    (buildOutputLine offlineEnv
        (withConfig emptyClient { defaultConfig with SearchResultFields := "name,comments".toList })
        { emptyCard with
          ID := "c1".toList, Name := "Buy milk".toList,
          Badges := { emptyCard.Badges with Comments := 2 } }).length = 2 :=
  (comments_fetch_failure_degrades offlineEnv
    (withConfig emptyClient { defaultConfig with SearchResultFields := "name,comments".toList })
    { emptyCard with
      ID := "c1".toList, Name := "Buy milk".toList,
      Badges := { emptyCard.Badges with Comments := 2 } }
    (.errorString "offline".toList) (by decide) (by decide)).1

/-! ## Renderer dispatch -/

/-- C7. A format name that, lowercased, is none of `text`, `csv`, `json`,
`excel`, `markdown` makes `outputCards` and `outputMembers` return the error
`INVALID_OUTPUT_FORMAT` and leave the state, standard output included, and
the records as they were. -/
theorem invalid_format_is_rejected (env : Env) (st : State)
    (cards : List TrelloCardSearchResult) (members : List TrelloMember) (format : Str)
    (hformat : ToLower env format
      ∉ ["text".toList, "csv".toList, "json".toList, "excel".toList, "markdown".toList]) :
    outputCards env st cards format
        = (some (.errorString "INVALID_OUTPUT_FORMAT".toList), cards, st) ∧
    outputMembers env st members format
        = (some (.errorString "INVALID_OUTPUT_FORMAT".toList), members, st) := by
  simp only [List.mem_cons, List.mem_nil_iff, or_false, not_or] at hformat
  obtain ⟨h1, h2, h3, h4, h5⟩ := hformat
  constructor
  · simp only [outputCards, h1, h2, h3, h4, h5, if_false]
  · simp only [outputMembers, h1, h2, h3, h4, h5, if_false]

theorem invalid_format_is_rejected_witness :
    outputCards offlineEnv ⟨emptyClient, "$ ".toList⟩ [emptyCard] "YAML".toList
        = (some (.errorString "INVALID_OUTPUT_FORMAT".toList), [emptyCard],
            ⟨emptyClient, "$ ".toList⟩) ∧
    outputMembers offlineEnv ⟨emptyClient, "$ ".toList⟩ [emptyMember] "YAML".toList
        = (some (.errorString "INVALID_OUTPUT_FORMAT".toList), [emptyMember],
            ⟨emptyClient, "$ ".toList⟩) :=
  invalid_format_is_rejected offlineEnv ⟨emptyClient, "$ ".toList⟩ [emptyCard] [emptyMember]
    "YAML".toList (by decide)

/-! ## Name index -/

theorem foldl_setLists_append (key : Str) (tmp : TrelloNameList) (client : TrelloClient) :
    tmp.foldl (fun client v => setLists client key (client.TrelloLists key ++ [v])) client
      = setLists client key (client.TrelloLists key ++ tmp) := by
  induction tmp generalizing client with
  | nil =>
    cases client
    simp only [List.foldl, setLists, List.append_nil, TrelloClient.mk.injEq, true_and, and_true]
    funext k
    by_cases hk : k = key <;> simp [hk]
  | cons v rest ih =>
    rw [List.foldl, ih]
    cases client
    simp only [setLists, TrelloClient.mk.injEq, true_and, and_true, if_true, List.append_assoc,
      List.singleton_append]
    funext k
    by_cases hk : k = key <;> simp [hk]

theorem ListNames_setLists (env : Env) (client : TrelloClient) (key : Str) (value : TrelloNameList)
    (boardID : Str) : ListNames env (setLists client key value) boardID = ListNames env client boardID :=
  rfl

theorem loadLists_cons (env : Env) (v : TrelloName) (rest : List TrelloName) (client : TrelloClient) :
    loadLists env (v :: rest) client
      = match ListNames env client v.ID with
        | (_, some err) => (some err, setLists client (ToLower env v.Name) [])
        | (tmp, none) => loadLists env rest (setLists client (ToLower env v.Name) tmp) := by
  rw [loadLists, ListNames_setLists]
  cases hl : ListNames env client v.ID with
  | mk tmp err =>
    cases err with
    | some err => rfl
    | none =>
      simp only [foldl_setLists_append]
      congr 1
      cases client
      simp only [setLists, TrelloClient.mk.injEq, true_and, and_true, if_true, List.nil_append]
      funext k
      by_cases hk : k = ToLower env v.Name <;> simp [hk]

theorem loadLists_frame (env : Env) (boards : List TrelloName) (client client' : TrelloClient)
    (h : loadLists env boards client = (none, client')) :
    client'.TrelloBoards = client.TrelloBoards ∧
    ∀ k, (∀ x ∈ boards, ToLower env x.Name ≠ k) → client'.TrelloLists k = client.TrelloLists k := by
  induction boards generalizing client with
  | nil =>
    simp only [loadLists, Prod.mk.injEq, true_and] at h
    subst h
    exact ⟨rfl, fun _ _ => rfl⟩
  | cons v rest ih =>
    rw [loadLists_cons] at h
    cases hl : ListNames env client v.ID with
    | mk tmp err =>
      rw [hl] at h
      cases err with
      | some err => simp at h
      | none =>
        obtain ⟨hb, hk⟩ := ih _ h
        refine ⟨hb, fun k hne => ?_⟩
        rw [hk k (fun x hx => hne x (List.mem_cons_of_mem _ hx))]
        have hv : k ≠ ToLower env v.Name := fun e => hne v (List.mem_cons_self _ _) e.symm
        simp [setLists, hv]

theorem loadLists_last (env : Env) (pre post : List TrelloName) (b : TrelloName)
    (client client' : TrelloClient)
    (h : loadLists env (pre ++ b :: post) client = (none, client'))
    (hlast : ∀ x ∈ post, ToLower env x.Name ≠ ToLower env b.Name) :
    client'.TrelloLists (ToLower env b.Name) = (ListNames env client b.ID).1 := by
  induction pre generalizing client with
  | nil =>
    rw [List.nil_append, loadLists_cons] at h
    cases hl : ListNames env client b.ID with
    | mk tmp err =>
      rw [hl] at h
      cases err with
      | some err => simp at h
      | none =>
        rw [(loadLists_frame env post _ client' h).2 _ hlast]
        simp [setLists]
  | cons p pre ih =>
    rw [List.cons_append, loadLists_cons] at h
    cases hl : ListNames env client p.ID with
    | mk tmp err =>
      rw [hl] at h
      cases err with
      | some err => simp at h
      | none => exact ih (setLists client (ToLower env p.Name) tmp) h

theorem NameFromID_append_of_first (theID : Str) (pre post : List TrelloName) (b : TrelloName)
    (hb : b.ID = theID) (hfirst : ∀ x ∈ pre, x.ID ≠ theID) :
    NameFromID theID (pre ++ b :: post) = b.Name := by
  induction pre with
  | nil => simp [NameFromID, hb]
  | cons p pre ih =>
    have hp : p.ID ≠ theID := hfirst p (List.mem_cons_self _ _)
    simp only [List.cons_append, NameFromID, hp, if_false]
    exact ih (fun x hx => hfirst x (List.mem_cons_of_mem _ hx))

/-- C8, as the claim states it, fails when two boards have the same lowercased
name: the index holds the lists of the later one under their common key, so
the round trip from the first board's id gives the other board's lists. -/
theorem board_round_trip_counterexample :
    (loadBoardInfo twoBoardsEnv emptyClient).1 = none ∧
    (loadBoardInfo twoBoardsEnv emptyClient).2.TrelloBoards
      = [{ ID := "b1".toList, Name := "Work".toList }, { ID := "b2".toList, Name := "work".toList }] ∧
    (loadBoardInfo twoBoardsEnv emptyClient).2.TrelloLists
        (ToLower twoBoardsEnv
          (NameFromID "b1".toList (loadBoardInfo twoBoardsEnv emptyClient).2.TrelloBoards))
      = [{ ID := "l2".toList, Name := "Done".toList }] ∧
    (ListNames twoBoardsEnv emptyClient "b1".toList).1
      = [{ ID := "l1".toList, Name := "Todo".toList }] := by
  refine ⟨by decide, by decide, by decide, by decide⟩

/-- C8, amended. After `loadBoardInfo` succeeds, for every board `b` of the
loaded board sequence that is the first with its id and the last with its
lowercased name, resolving the id of `b` to a name with `NameFromID`,
lowercasing it and looking it up in the list index gives the list sequence
`ListNames` returned for the id of `b`. -/
theorem board_round_trip (env : Env) (client client' : TrelloClient)
    (hload : loadBoardInfo env client = (none, client'))
    (pre post : List TrelloName) (b : TrelloName)
    (hboards : client'.TrelloBoards = pre ++ b :: post)
    (hfirst : ∀ x ∈ pre, x.ID ≠ b.ID)
    (hlast : ∀ x ∈ post, ToLower env x.Name ≠ ToLower env b.Name) :
    client'.TrelloLists (ToLower env (NameFromID b.ID client'.TrelloBoards))
      = (ListNames env client b.ID).1 := by
  unfold loadBoardInfo at hload
  cases hb : BoardNames env client
      (if env.Getenv "TRELLO_USER".toList = [] then "me".toList
       else env.Getenv "TRELLO_USER".toList) with
  | mk boards err =>
    simp only [hb] at hload
    cases err with
    | some err => simp at hload
    | none =>
      simp only at hload
      have hframe := (loadLists_frame env _ _ _ hload).1
      simp only at hframe
      rw [hboards] at hframe
      rw [hboards, NameFromID_append_of_first b.ID pre post b rfl hfirst]
      rw [← hframe] at hload
      have hkey := loadLists_last env pre post b _ client' hload hlast
      exact hkey

theorem board_round_trip_witness :
    (loadBoardInfo twoBoardsEnv emptyClient).2.TrelloLists
        (ToLower twoBoardsEnv
          (NameFromID "b2".toList (loadBoardInfo twoBoardsEnv emptyClient).2.TrelloBoards))
      = (ListNames twoBoardsEnv emptyClient "b2".toList).1 :=
  board_round_trip twoBoardsEnv emptyClient (loadBoardInfo twoBoardsEnv emptyClient).2
    (Prod.ext (by decide) rfl) [{ ID := "b1".toList, Name := "Work".toList }] []
    { ID := "b2".toList, Name := "work".toList } (by decide) (by decide) (by decide)

/-! ## Query preprocessor -/

/-- C2, the failing input: on the four-line example text `parseQuery` returns
no error and sets `Format = json` and `CardLimit = 5` as the claim says, but
the query string is `foo bar  baz ` with two blanks after `bar`, not
`foo bar baz `: the line is trimmed before the comment is cut off, so the
blank in front of `//` is left in place. -/
theorem parseQuery_example_double_blank :
    (parseQuery offlineEnv emptyClient exampleQuery).1 = ("foo bar  baz ".toList, none) ∧
    (parseQuery offlineEnv emptyClient exampleQuery).1 ≠ ("foo bar baz ".toList, none) ∧
    (parseQuery offlineEnv emptyClient exampleQuery).2.config.Format = "json".toList ∧
    (parseQuery offlineEnv emptyClient exampleQuery).2.config.CardLimit = 5 := by
  refine ⟨by decide, by decide, by decide, by decide⟩

theorem handleAtCommand_format_json (env : Env) (client : TrelloClient)
    (hlow : ToLower env "@format json".toList = "@format json".toList) :
    handleAtCommand env client "@format json".toList
      = (none, withConfig client { client.config with Format := "json".toList }) := by
  have hcmd : (Split "@format json".toList " ".toList).headD [] = "@format".toList := by decide
  have hparms : TrimSpace (Replace "@format json".toList "@format".toList []) = "json".toList := by
    decide
  unfold handleAtCommand
  simp only [hlow, hcmd, hparms]
  rfl

theorem handleAtCommand_limit_5 (env : Env) (client : TrelloClient)
    (hlow : ToLower env "@limit 5".toList = "@limit 5".toList) :
    handleAtCommand env client "@limit 5".toList
      = (none, withConfig client { client.config with CardLimit := 5 }) := by
  have hcmd : (Split "@limit 5".toList " ".toList).headD [] = "@limit".toList := by decide
  have hparms : TrimSpace (Replace "@limit 5".toList "@limit".toList []) = "5".toList := by decide
  have hatoi : Atoi "5".toList = (5, none) := by decide
  unfold handleAtCommand
  simp only [hlow, hcmd, hparms, hatoi]
  rfl

theorem parseLines_cons_directive (env : Env) (line l : Str) (rest : List Str) (query : Str)
    (client client' : TrelloClient)
    (hclean : (Split (TrimSpace line) "//".toList).headD [] = l)
    (hne : l ≠ []) (hat : l.head? = some '@')
    (hcmd : handleAtCommand env client l = (none, client')) :
    parseLines env (line :: rest) query client = parseLines env rest query client' := by
  rw [parseLines]
  simp only [hclean, hne, hat, hcmd, ne_eq, not_false_eq_true, if_true]

theorem parseLines_cons_text (env : Env) (line l : Str) (rest : List Str) (query : Str)
    (client : TrelloClient)
    (hclean : (Split (TrimSpace line) "//".toList).headD [] = l)
    (hne : l ≠ []) (hat : l.head? ≠ some '@') :
    parseLines env (line :: rest) query client
      = parseLines env rest (query ++ l ++ " ".toList) client := by
  rw [parseLines]
  simp only [hclean, hne, hat, ne_eq, not_false_eq_true, if_true, if_false]

/-- Support for C2: what `parseQuery` does on the example text holds in every
environment whose lowercasing leaves the two directive lines, which are lower
case, unchanged, and for every client: the query string with the two blanks,
no error, and the configuration changed in `Format` and `CardLimit` only. -/
theorem parseQuery_example (env : Env) (client : TrelloClient)
    (hformat : ToLower env "@format json".toList = "@format json".toList)
    (hlimit : ToLower env "@limit 5".toList = "@limit 5".toList) :
    parseQuery env client exampleQuery
      = (("foo bar  baz ".toList, none),
          withConfig client { client.config with Format := "json".toList, CardLimit := 5 }) := by
  have hlines : Split exampleQuery "\n".toList
      = ["@format json".toList, "foo bar // comment".toList, "@limit 5".toList, "baz".toList] := by
    decide
  unfold parseQuery
  rw [hlines,
    parseLines_cons_directive env _ "@format json".toList _ _ client _ (by decide) (by decide)
      (by decide) (handleAtCommand_format_json env client hformat),
    parseLines_cons_text env _ "foo bar ".toList _ _ _ (by decide) (by decide) (by decide),
    parseLines_cons_directive env _ "@limit 5".toList _ _ _ _ (by decide) (by decide)
      (by decide) (handleAtCommand_limit_5 env _ hlimit),
    parseLines_cons_text env _ "baz".toList _ _ _ (by decide) (by decide) (by decide),
    parseLines]
  rfl

theorem parseQuery_example_witness :
    parseQuery offlineEnv emptyClient exampleQuery
      = (("foo bar  baz ".toList, none),
          withConfig emptyClient { defaultConfig with Format := "json".toList, CardLimit := 5 }) :=
  parseQuery_example offlineEnv emptyClient (by decide) (by decide)

theorem handleAtCommand_error_of_bad_limit (env : Env) (client : TrelloClient) (command : Str)
    (hcmd : (Split (ToLower env command) " ".toList).headD [] = "@limit".toList)
    (hbad : (Atoi (TrimSpace (Replace (ToLower env command) "@limit".toList []))).2 ≠ none) :
    (handleAtCommand env client command).1 ≠ none := by
  unfold handleAtCommand
  simp only [hcmd]
  exact hbad

/-- Support for C3: a line that the preprocessor reads as a `@limit` directive
whose value it cannot convert makes `parseQuery` return an error and the empty
query string, wherever the line stands in the text. -/
theorem parseLines_error_of_bad_limit (env : Env) (lines : List Str) (line : Str)
    (hmem : line ∈ lines)
    (hat : ((Split (TrimSpace line) "//".toList).headD []).head? = some '@')
    (hcmd : (Split (ToLower env ((Split (TrimSpace line) "//".toList).headD [])) " ".toList).headD []
      = "@limit".toList)
    (hbad : (Atoi (TrimSpace (Replace (ToLower env ((Split (TrimSpace line) "//".toList).headD []))
      "@limit".toList []))).2 ≠ none)
    (query : Str) (client : TrelloClient) :
    (parseLines env lines query client).1.1 = [] ∧ (parseLines env lines query client).1.2 ≠ none := by
  induction lines generalizing query client with
  | nil => simp at hmem
  | cons first rest ih =>
    rw [parseLines]
    by_cases hfirst : line = first
    · subst hfirst
      have hne : (Split (TrimSpace line) "//".toList).headD [] ≠ [] := by
        intro h
        rw [h] at hat
        simp at hat
      have herr := handleAtCommand_error_of_bad_limit env client _ hcmd hbad
      simp only [hne, hat, ne_eq, not_false_eq_true, if_true]
      cases hh : handleAtCommand env client ((Split (TrimSpace line) "//".toList).headD []) with
      | mk err client' =>
        rw [hh] at herr
        cases err with
        | none => exact absurd rfl herr
        | some err => simp
    · have hrest : line ∈ rest := by
        rcases List.mem_cons.mp hmem with h | h
        · exact absurd h hfirst
        · exact h
      split_ifs with h1 h2
      · cases hh : handleAtCommand env client ((Split (TrimSpace first) "//".toList).headD []) with
        | mk err client' =>
          cases err with
          | none => exact ih hrest _ _
          | some err => simp
      · exact ih hrest _ _
      · exact ih hrest _ _

theorem parseQuery_error_of_bad_limit (env : Env) (client : TrelloClient) (text line : Str)
    (hmem : line ∈ Split text "\n".toList)
    (hat : ((Split (TrimSpace line) "//".toList).headD []).head? = some '@')
    (hcmd : (Split (ToLower env ((Split (TrimSpace line) "//".toList).headD [])) " ".toList).headD []
      = "@limit".toList)
    (hbad : (Atoi (TrimSpace (Replace (ToLower env ((Split (TrimSpace line) "//".toList).headD []))
      "@limit".toList []))).2 ≠ none) :
    (parseQuery env client text).1.1 = [] ∧ (parseQuery env client text).1.2 ≠ none :=
  parseLines_error_of_bad_limit env _ line hmem hat hcmd hbad [] client

theorem parseQuery_error_of_bad_limit_example :
    (parseQuery offlineEnv emptyClient "label:urgent\n  @LIMIT abc // all of them\nis:open".toList).1.1
      = [] ∧
    (parseQuery offlineEnv emptyClient "label:urgent\n  @LIMIT abc // all of them\nis:open".toList).1.2
      ≠ none :=
  parseQuery_error_of_bad_limit offlineEnv emptyClient _ "  @LIMIT abc // all of them".toList
    (by decide) (by decide) (by decide) (by decide)

/-- C3, the failing input: the value `5@limit` is no integer, yet `parseQuery`
returns no error and sets the limit to 5, because `handleAtCommand` deletes
every occurrence of the directive word from the line, not only the leading one. -/
theorem limit_directive_repeated_word_accepted :
    (Atoi "5@limit".toList).2 ≠ none ∧
    (parseQuery offlineEnv emptyClient "@limit 5@limit".toList).1 = ([], none) ∧
    (parseQuery offlineEnv emptyClient "@limit 5@limit".toList).2.config.CardLimit = 5 := by
  refine ⟨by decide, by decide, by decide⟩

/-! ## The search command -/

/-- C4, the failing input: with the limit configured as 200 and a query file
that holds `@limit 5`, `cmdSearch` requests the search with `cards_limit=200`
(the request URL is the first line written), although the configuration holds
the limit 5 once the file is parsed. -/
theorem cmdSearch_ignores_limit_directive :
    emptyClient.config.CardLimit = 200 ∧
    String.mk (cmdSearch queryFileEnv ⟨emptyClient, []⟩
        ["search".toList, "query.txt".toList]).2.stdout
      = "https://api.trello.com/1/search?modelTypes=cards&card_fields=all&cards_limit=200&query=label:urgent &key=key&token=token\nError searching for cards: offline\n" ∧
    (cmdSearch queryFileEnv ⟨emptyClient, []⟩
        ["search".toList, "query.txt".toList]).2.client.config.CardLimit = 5 := by
  refine ⟨by decide, by decide, by decide⟩

/-! ## Client construction -/

theorem newTrelloClient_of_key (env : Env) (stdout : Str)
    (hkey : env.Getenv "TRELLO_KEY".toList ≠ []) :
    newTrelloClient env stdout
      = (.returned
          { TrelloKey := env.Getenv "TRELLO_KEY".toList
            TrelloToken := env.Getenv "TRELLO_TOKEN".toList
            TrelloBoards := []
            TrelloLists := fun _ => []
            config :=
              { ShowUsage := false, Command := [], SearchResultFields := [], ColSep := [],
                RowSep := [], QuoteChar := [], CardLimit := 0, NumberOutput := false, Format := [],
                BoardName := [], ListName := [] } },
          stdout) := by
  simp only [newTrelloClient, hkey, if_false]

theorem newTrelloClient_of_no_key (env : Env) (stdout : Str)
    (hkey : env.Getenv "TRELLO_KEY".toList = []) :
    newTrelloClient env stdout
      = (.exited 1,
          stdout ++ "TRELLO_KEY environment variable not set, exiting.".toList ++ "\n".toList) := by
  simp only [newTrelloClient, hkey, if_true]

/-- C13, the failing input: with `TRELLO_KEY` set and `TRELLO_TOKEN` unset,
`newTrelloClient` writes nothing and returns a client whose token is empty;
its second test asks again whether the key is empty, not the token. -/
theorem newTrelloClient_returns_without_token :
    keyOnlyEnv.Getenv "TRELLO_TOKEN".toList = [] ∧
    ∃ client, newTrelloClient keyOnlyEnv [] = (.returned client, []) ∧
      client.TrelloKey = "k3y".toList ∧ client.TrelloToken = [] := by
  refine ⟨by decide, ?_⟩
  exact ⟨_, newTrelloClient_of_key keyOnlyEnv [] (by decide), by decide, by decide⟩

/-! ## The boards command -/

/-- C14, the failing input: with the format `json` and one board with one
list, `cmdBoards` returns the error and has written the board and list lines
all the same; no `return` follows the assignment of the error. -/
theorem cmdBoards_prints_despite_error :
    (cmdBoards offlineEnv ⟨oneBoardJsonClient, []⟩).1
      = some (.errorString "Format not supported for this operation.".toList) ∧
    String.mk (cmdBoards offlineEnv ⟨oneBoardJsonClient, []⟩).2.stdout
      = "Board\tHome\tb1\nList\tTodo\tl1\n\n" := by
  constructor <;> decide

/-! ## Advertised field names -/

/-- C16, the failing inputs: of the 29 names the usage text lists, the four
names `idchecklists`, `idlabels`, `idmembers` and `idmembersvoted` have no case
in the projector, and requesting one of them gives the empty string for every
card. -/
theorem usage_lists_unrecognised_fields :
    usageFieldNames.length = 29 ∧
    usageFieldNames.filter (fun name => name ∉ cardFieldNames)
      = ["idchecklists".toList, "idlabels".toList, "idmembers".toList, "idmembersvoted".toList] ∧
    ∀ name ∈ ["idchecklists".toList, "idlabels".toList, "idmembers".toList,
        "idmembersvoted".toList],
      ∀ card : TrelloCardSearchResult,
        buildOutputLine offlineEnv (withFields emptyClient name) card = [[]] := by
  refine ⟨by decide, by decide, ?_⟩
  intro name hname card
  simp only [List.mem_cons, List.mem_nil_iff, or_false] at hname
  rw [buildOutputLine_eq_map]
  rcases hname with h | h | h | h <;> subst h
  · have hs : Split (withFields emptyClient "idchecklists".toList).config.SearchResultFields
        ",".toList = ["idchecklists".toList] := by decide
    rw [hs, List.map_cons, List.map_nil,
      cardItem_of_not_mem offlineEnv _ card _ (by decide)]
    rfl
  · have hs : Split (withFields emptyClient "idlabels".toList).config.SearchResultFields
        ",".toList = ["idlabels".toList] := by decide
    rw [hs, List.map_cons, List.map_nil,
      cardItem_of_not_mem offlineEnv _ card _ (by decide)]
    rfl
  · have hs : Split (withFields emptyClient "idmembers".toList).config.SearchResultFields
        ",".toList = ["idmembers".toList] := by decide
    rw [hs, List.map_cons, List.map_nil,
      cardItem_of_not_mem offlineEnv _ card _ (by decide)]
    rfl
  · have hs : Split (withFields emptyClient "idmembersvoted".toList).config.SearchResultFields
        ",".toList = ["idmembersvoted".toList] := by decide
    rw [hs, List.map_cons, List.map_nil,
      cardItem_of_not_mem offlineEnv _ card _ (by decide)]
    rfl

/-! ## Directives that overwrite a configuration field -/

theorem replaceFrom_of_not_infix (old new s : Str) (h : ¬ old <:+: s) :
    replaceFrom old new s 0 = s := by
  induction s with
  | nil => rfl
  | cons c cs ih =>
    have hpre : old.isPrefixOf (c :: cs) = false := by
      rw [Bool.eq_false_iff]
      intro hp
      exact h (List.isPrefixOf_iff_prefix.mp hp).isInfix
    have hcs : ¬ old <:+: cs := fun hi => h (List.infix_cons hi)
    rw [replaceFrom, hpre, ih hcs]
    rfl

theorem replaceFrom_skip (old new a rest : Str) :
    replaceFrom old new (a ++ rest) a.length = replaceFrom old new rest 0 := by
  induction a with
  | nil => rfl
  | cons x xs ih =>
    rw [List.cons_append, List.length_cons, replaceFrom]
    exact ih

theorem splitFrom_blank_headD (p w cur : Str) (hp : ' ' ∉ p) :
    (splitFrom [' '] (p ++ ' ' :: w) 0 cur).headD [] = cur.reverse ++ p := by
  induction p generalizing cur with
  | nil => simp [splitFrom, List.isPrefixOf]
  | cons d ds ih =>
    have hd : ' ' ≠ d := by
      intro e
      subst e
      exact hp (List.mem_cons_self _ _)
    have hds : ' ' ∉ ds := fun e => hp (List.mem_cons_of_mem _ e)
    have hpre : List.isPrefixOf [' '] (d :: (ds ++ ' ' :: w)) = false := by
      simp [List.isPrefixOf, hd]
    rw [List.cons_append, splitFrom, hpre]
    simp only [Bool.false_eq_true, if_false]
    rw [ih _ hds]
    simp

/-- The two values `handleAtCommand` computes from a lowercased line that reads
`p`, a blank, `w`: the directive word `p` and, when `p` does not occur in `w`,
the trimmed `w`. -/
theorem directive_word_and_value (p' w : Str) (hp : ' ' ∉ p')
    (hocc : ¬ ('@' :: p') <:+: w) :
    (Split (('@' :: p') ++ ' ' :: w) " ".toList).headD [] = '@' :: p' ∧
    TrimSpace (Replace (('@' :: p') ++ ' ' :: w) ('@' :: p') []) = TrimSpace w := by
  constructor
  · have hsp : " ".toList = [' '] := rfl
    rw [hsp]
    simp only [Split, List.cons_ne_nil, if_false]
    have := splitFrom_blank_headD ('@' :: p') w [] (by simp [hp])
    simpa using this
  · have hrep : Replace (('@' :: p') ++ ' ' :: w) ('@' :: p') [] = ' ' :: w := by
      simp only [Replace, List.cons_ne_nil, if_false, List.cons_append]
      have hpre : List.isPrefixOf ('@' :: p') ('@' :: (p' ++ ' ' :: w)) = true := by
        rw [List.isPrefixOf_iff_prefix]
        exact ⟨' ' :: w, rfl⟩
      have hnot : List.isPrefixOf ('@' :: p') (' ' :: w) = false := by
        simp [List.isPrefixOf]
      rw [replaceFrom, hpre]
      simp only [if_true, List.nil_append, List.length_cons, Nat.add_sub_cancel]
      rw [replaceFrom_skip, replaceFrom, hnot, replaceFrom_of_not_infix _ _ _ hocc]
      rfl
    rw [hrep]
    simp [TrimSpace, List.dropWhile, isSpace]

theorem ToLower_append_of_fixed (env : Env) (a value : Str) (hfix : ∀ c ∈ a, env.toLower c = c) :
    ToLower env (a ++ value) = a ++ ToLower env value := by
  have ha : a.map env.toLower = a := by
    induction a with
    | nil => rfl
    | cons c cs ih =>
      rw [List.map_cons, hfix c (List.mem_cons_self _ _),
        ih (fun x hx => hfix x (List.mem_cons_of_mem _ hx))]
  simp only [ToLower, List.map_append, ha]

/-- C15, the failing inputs: `handleAtCommand` lowercases the whole line
before it takes it apart, so `@format JSON` stores `json` and `@colsep X`
stores `x`, not the value given; and it strips the directive word by deleting
every occurrence of it, so `@rowsep ;@rowsep` stores `;`. -/
theorem directive_value_not_stored_verbatim :
    (handleAtCommand offlineEnv emptyClient "@format JSON".toList).2.config.Format = "json".toList ∧
    (handleAtCommand offlineEnv emptyClient "@format JSON".toList).2.config.Format ≠ "JSON".toList ∧
    (handleAtCommand offlineEnv emptyClient "@colsep X".toList).2.config.ColSep = "x".toList ∧
    (handleAtCommand offlineEnv emptyClient "@colsep X".toList).2.config.ColSep ≠ "X".toList ∧
    (handleAtCommand offlineEnv emptyClient "@rowsep ;@rowsep".toList).2.config.RowSep
      = ";".toList := by
  refine ⟨by decide, by decide, by decide, by decide, by decide⟩

/-- Support for C15: what `handleAtCommand` stores for a line `@name value`
with `name` one of `fields`, `format`, `colsep`, `rowsep` is the lowercased
value, when that has no surrounding white space and does not contain the
directive word; no error is returned and nothing else of the client changes.
For a value that lowercasing leaves unchanged this is the value itself. The
lowercasing is only asked to leave the characters of the four directive words
and the blank unchanged. -/
theorem handleAtCommand_overwrites_lowercased (env : Env) (client : TrelloClient) (value : Str)
    (hfix : ∀ c ∈ "@fields @format @colsep @rowsep".toList, env.toLower c = c)
    (htrim : TrimSpace (ToLower env value) = ToLower env value) :
    (¬ "@fields".toList <:+: ToLower env value →
      handleAtCommand env client ("@fields ".toList ++ value)
        = (none, withConfig client { client.config with SearchResultFields := ToLower env value })) ∧
    (¬ "@format".toList <:+: ToLower env value →
      handleAtCommand env client ("@format ".toList ++ value)
        = (none, withConfig client { client.config with Format := ToLower env value })) ∧
    (¬ "@colsep".toList <:+: ToLower env value →
      handleAtCommand env client ("@colsep ".toList ++ value)
        = (none, withConfig client { client.config with ColSep := ToLower env value })) ∧
    (¬ "@rowsep".toList <:+: ToLower env value →
      handleAtCommand env client ("@rowsep ".toList ++ value)
        = (none, withConfig client { client.config with RowSep := ToLower env value })) := by
  refine ⟨?_, ?_, ?_, ?_⟩
  · intro hocc
    have hlow := ToLower_append_of_fixed env "@fields ".toList value
      (fun c hc => hfix c ((by decide : ∀ c ∈ "@fields ".toList,
        c ∈ "@fields @format @colsep @rowsep".toList) c hc))
    have hform : "@fields ".toList ++ ToLower env value
        = ('@' :: "fields".toList) ++ ' ' :: ToLower env value := rfl
    obtain ⟨hcmd, hparms⟩ := directive_word_and_value "fields".toList (ToLower env value)
      (by decide) hocc
    unfold handleAtCommand
    simp only [hlow, hform, hcmd, hparms, htrim]
    rfl
  · intro hocc
    have hlow := ToLower_append_of_fixed env "@format ".toList value
      (fun c hc => hfix c ((by decide : ∀ c ∈ "@format ".toList,
        c ∈ "@fields @format @colsep @rowsep".toList) c hc))
    have hform : "@format ".toList ++ ToLower env value
        = ('@' :: "format".toList) ++ ' ' :: ToLower env value := rfl
    obtain ⟨hcmd, hparms⟩ := directive_word_and_value "format".toList (ToLower env value)
      (by decide) hocc
    unfold handleAtCommand
    simp only [hlow, hform, hcmd, hparms, htrim]
    rfl
  · intro hocc
    have hlow := ToLower_append_of_fixed env "@colsep ".toList value
      (fun c hc => hfix c ((by decide : ∀ c ∈ "@colsep ".toList,
        c ∈ "@fields @format @colsep @rowsep".toList) c hc))
    have hform : "@colsep ".toList ++ ToLower env value
        = ('@' :: "colsep".toList) ++ ' ' :: ToLower env value := rfl
    obtain ⟨hcmd, hparms⟩ := directive_word_and_value "colsep".toList (ToLower env value)
      (by decide) hocc
    unfold handleAtCommand
    simp only [hlow, hform, hcmd, hparms, htrim]
    rfl
  · intro hocc
    have hlow := ToLower_append_of_fixed env "@rowsep ".toList value
      (fun c hc => hfix c ((by decide : ∀ c ∈ "@rowsep ".toList,
        c ∈ "@fields @format @colsep @rowsep".toList) c hc))
    have hform : "@rowsep ".toList ++ ToLower env value
        = ('@' :: "rowsep".toList) ++ ' ' :: ToLower env value := rfl
    obtain ⟨hcmd, hparms⟩ := directive_word_and_value "rowsep".toList (ToLower env value)
      (by decide) hocc
    unfold handleAtCommand
    simp only [hlow, hform, hcmd, hparms, htrim]
    rfl

theorem handleAtCommand_overwrites_lowercased_witness :
    handleAtCommand offlineEnv emptyClient ("@fields ".toList ++ "Name,Desc".toList)
      = (none, withConfig emptyClient
          { emptyClient.config with SearchResultFields := "name,desc".toList }) :=
  (handleAtCommand_overwrites_lowercased offlineEnv emptyClient "Name,Desc".toList
    (by decide) (by decide)).1 (by decide)

/-! ## The markdown renderer -/

theorem formatterMarkdownCard_eq (env : Env) (st : State) (card : TrelloCardSearchResult) :
    formatterMarkdownCard env st card
      = ({ card with Labels := (markdownLabels env card.Labels).1 },
          Print
            (Print st
              (Join
                (markdownInfoLines env st.client card
                  (markdownChecklistLines env st.client card
                    (markdownCommentLines env st.client card
                      ["# ".toList ++ TrimSpace card.Name, (markdownLabels env card.Labels).2, [],
                        "## Description".toList, card.Desc])))
                "\n".toList))
            st.client.config.RowSep) := by
  rfl

theorem foldl_append_exists {α : Type} (f : List Str → α → List Str)
    (h : ∀ acc x, ∃ e, f acc x = acc ++ e) (l : List α) (init : List Str) :
    ∃ e, l.foldl f init = init ++ e := by
  induction l generalizing init with
  | nil => exact ⟨[], by simp⟩
  | cons x xs ih =>
    obtain ⟨e1, h1⟩ := h init x
    obtain ⟨e2, h2⟩ := ih (f init x)
    exact ⟨e1 ++ e2, by rw [List.foldl, h2, h1, List.append_assoc]⟩

theorem markdownCommentLines_append (env : Env) (client : TrelloClient)
    (card : TrelloCardSearchResult) (linebuf : List Str) :
    ∃ e, markdownCommentLines env client card linebuf = linebuf ++ e := by
  unfold markdownCommentLines
  split_ifs with hpos
  · cases hc : CardComments env client card.ID with
    | mk comments err =>
      cases err with
      | some err => exact ⟨_, rfl⟩
      | none =>
        simp only
        obtain ⟨e, he⟩ := foldl_append_exists
          (fun linebuf (comment : TrelloCardComment) =>
            linebuf ++ [[]]
              ++ ["### ".toList ++ comment.Date ++ " from @".toList ++ comment.MemberCreator.UserName]
              ++ [[]] ++ [comment.Data.Text] ++ [[]])
          (fun acc x =>
            ⟨[[]] ++ ["### ".toList ++ x.Date ++ " from @".toList ++ x.MemberCreator.UserName]
              ++ [[]] ++ [x.Data.Text] ++ [[]], by simp only [List.append_assoc]⟩) comments
          (linebuf ++ [[]] ++ ["## Card Comments".toList])
        exact ⟨_, by rw [he, List.append_assoc, List.append_assoc]⟩
  · exact ⟨[], by simp⟩

theorem markdownChecklistLines_append (env : Env) (client : TrelloClient)
    (card : TrelloCardSearchResult) (linebuf : List Str) :
    ∃ e, markdownChecklistLines env client card linebuf = linebuf ++ e := by
  unfold markdownChecklistLines
  split_ifs with hpos
  · cases hc : CardChecklists env client card.ID with
    | mk chklists err =>
      cases err with
      | some err => exact ⟨_, rfl⟩
      | none =>
        simp only
        obtain ⟨e, he⟩ := foldl_append_exists
          (fun linebuf (chklist : TrelloChecklist) =>
            chklist.CheckItems.foldl
              (fun linebuf v =>
                let s := " 1. ".toList ++ v.Name
                let s := if v.State = "complete".toList then s ++ " &#x2705; (done)".toList else s
                linebuf ++ [s])
              (linebuf ++ ["### ".toList ++ chklist.Name]))
          (fun acc x => by
            obtain ⟨e, he⟩ := foldl_append_exists
              (fun linebuf (v : CheckItem) =>
                let s := " 1. ".toList ++ v.Name
                let s := if v.State = "complete".toList then s ++ " &#x2705; (done)".toList else s
                linebuf ++ [s])
              (fun acc v => ⟨_, rfl⟩) x.CheckItems (acc ++ ["### ".toList ++ x.Name])
            exact ⟨["### ".toList ++ x.Name] ++ e, by beta_reduce; rw [he, List.append_assoc]⟩)
          chklists (linebuf ++ [[]] ++ ["## Checklists".toList])
        exact ⟨_, by rw [he, List.append_assoc, List.append_assoc, List.append_assoc]⟩
  · exact ⟨[], by simp⟩

theorem markdownInfoLines_append (env : Env) (client : TrelloClient)
    (card : TrelloCardSearchResult) (linebuf : List Str) :
    ∃ e, markdownInfoLines env client card linebuf = linebuf ++ "## Card Info".toList :: e := by
  unfold markdownInfoLines
  by_cases hdue : card.Due = []
  · simp only [hdue, ne_eq, not_true_eq_false, if_false, List.append_assoc,
      List.singleton_append, List.cons_append, List.nil_append]
    exact ⟨_, rfl⟩
  · simp only [hdue, ne_eq, not_false_eq_true, if_true, List.append_assoc,
      List.singleton_append, List.cons_append, List.nil_append]
    exact ⟨_, rfl⟩

theorem Join_cons_cons (a b : Str) (l : List Str) (sep : Str) :
    Join (a :: b :: l) sep = a ++ sep ++ Join (b :: l) sep := by
  simp [Join, List.intercalate, List.intersperse]

theorem Join_five_append (a0 a1 a2 a3 a4 : Str) (e : List Str) (sep : Str) (he : e ≠ []) :
    Join ([a0, a1, a2, a3, a4] ++ e) sep
      = a0 ++ sep ++ a1 ++ sep ++ a2 ++ sep ++ a3 ++ sep ++ a4 ++ sep ++ Join e sep := by
  cases e with
  | nil => exact absurd rfl he
  | cons x xs =>
    simp only [List.cons_append, List.nil_append, Join_cons_cons, List.append_assoc]

theorem formatterMarkdownCard_state (env : Env) (st : State) (card : TrelloCardSearchResult) :
    formatterMarkdownCard env st card
      = ({ card with Labels := (markdownLabels env card.Labels).1 },
          ⟨st.client, st.stdout ++ (formatterMarkdownCard env ⟨st.client, []⟩ card).2.stdout⟩) := by
  rw [formatterMarkdownCard_eq, formatterMarkdownCard_eq]
  simp only [Print, List.nil_append, List.append_assoc]

theorem formatterMarkdownCard_text (env : Env) (client : TrelloClient)
    (card : TrelloCardSearchResult) :
    ∃ tail, (formatterMarkdownCard env ⟨client, []⟩ card).2.stdout
      = "# ".toList ++ TrimSpace card.Name ++ "\n".toList
          ++ (markdownLabels env card.Labels).2 ++ "\n".toList
          ++ "\n".toList
          ++ "## Description".toList ++ "\n".toList
          ++ card.Desc ++ "\n".toList
          ++ tail := by
  rw [formatterMarkdownCard_eq]
  obtain ⟨e1, h1⟩ := markdownCommentLines_append env client card
    ["# ".toList ++ TrimSpace card.Name, (markdownLabels env card.Labels).2, [],
      "## Description".toList, card.Desc]
  obtain ⟨e2, h2⟩ := markdownChecklistLines_append env client card
    (["# ".toList ++ TrimSpace card.Name, (markdownLabels env card.Labels).2, [],
      "## Description".toList, card.Desc] ++ e1)
  obtain ⟨e3, h3⟩ := markdownInfoLines_append env client card
    (["# ".toList ++ TrimSpace card.Name, (markdownLabels env card.Labels).2, [],
      "## Description".toList, card.Desc] ++ e1 ++ e2)
  simp only [Print, List.nil_append]
  rw [h1, h2, h3, List.append_assoc, List.append_assoc,
    Join_five_append _ _ _ _ _ _ _ (by simp)]
  simp only [List.append_assoc, List.nil_append]
  exact ⟨_, rfl⟩

theorem formatterMarkdown_fold (env : Env) (cards done : List TrelloCardSearchResult) (st : State) :
    cards.foldl
        (fun (acc : List TrelloCardSearchResult × State) card =>
          let (done, st) := acc
          let (card, st) := formatterMarkdownCard env st card
          (done ++ [card], st))
        (done, st)
      = (done ++ cards.map (fun card => { card with Labels := (markdownLabels env card.Labels).1 }),
          ⟨st.client,
            st.stdout ++ cards.flatMap
              (fun card => (formatterMarkdownCard env ⟨st.client, []⟩ card).2.stdout)⟩) := by
  induction cards generalizing done st with
  | nil => simp
  | cons card rest ih =>
    rw [List.foldl]
    simp only
    rw [formatterMarkdownCard_state env st card, ih]
    simp only [List.map_cons, List.flatMap_cons, List.append_assoc, List.singleton_append]

theorem formatterMarkdown_eq (env : Env) (st : State) (cards : List TrelloCardSearchResult) :
    formatterMarkdown env st cards
      = (none,
          cards.map (fun card => { card with Labels := (markdownLabels env card.Labels).1 }),
          ⟨st.client,
            st.stdout ++ cards.flatMap
              (fun card => (formatterMarkdownCard env ⟨st.client, []⟩ card).2.stdout)⟩) := by
  unfold formatterMarkdown
  rw [formatterMarkdown_fold]
  simp only [List.nil_append]

set_option maxRecDepth 100000 in
/-- C11, as the claim states it, fails: the markdown renderer puts the
description into its line buffer as it is, so a description of two lines is
written as two lines and the escaped form does not occur in the output. -/
theorem markdown_description_counterexample :
    String.mk (formatterMarkdown offlineEnv ⟨emptyClient, []⟩ [twoLineCard]).2.2.stdout
      = "# Buy milk\n<span style=\"background-color: red;\">[RED]</span> \n\n## Description\ntwo\nlines\n## Card Info\n * last activity on \n * card shortUrl []()\n * board \n * list \n\n\n" ∧
    ¬ "two\\nlines".toList
        <:+: (formatterMarkdown offlineEnv ⟨emptyClient, []⟩ [twoLineCard]).2.2.stdout := by
  constructor <;> decide

/-- C11, amended. For every card of the list, the markdown renderer emits the
card's description unchanged, literal newlines included: after what it wrote
for the cards before, it writes the title line, the label line, an empty line
and the line `## Description`, then the description as it is and a newline,
then the rest of the card's section. -/
theorem markdown_description_verbatim (env : Env) (st : State)
    (pre post : List TrelloCardSearchResult) (card : TrelloCardSearchResult) :
    ∃ tail, (formatterMarkdown env st (pre ++ card :: post)).2.2.stdout
      = (formatterMarkdown env st pre).2.2.stdout
          ++ ("# ".toList ++ TrimSpace card.Name ++ "\n".toList
            ++ (markdownLabels env card.Labels).2 ++ "\n".toList
            ++ "\n".toList
            ++ "## Description".toList ++ "\n".toList
            ++ card.Desc ++ "\n".toList)
          ++ tail := by
  obtain ⟨tail, htail⟩ := formatterMarkdownCard_text env st.client card
  rw [formatterMarkdown_eq, formatterMarkdown_eq]
  simp only [List.flatMap_append, List.flatMap_cons, htail, List.append_assoc]
  exact ⟨_, rfl⟩

/-! ## Escaping of newlines and the csv renderers -/

theorem replaceFrom_single_not_mem (c : Char) (new s : Str) (hnew : c ∉ new) :
    c ∉ replaceFrom [c] new s 0 := by
  induction s with
  | nil => simp [replaceFrom]
  | cons d ds ih =>
    by_cases hd : c = d
    · subst hd
      simp only [replaceFrom, List.isPrefixOf, beq_self_eq_true, Bool.and_self, if_true,
        List.length_singleton, Nat.sub_self, List.mem_append, not_or]
      exact ⟨hnew, ih⟩
    · have hpre : List.isPrefixOf [c] (d :: ds) = false := by simp [List.isPrefixOf, hd]
      rw [replaceFrom, hpre]
      simp only [Bool.false_eq_true, if_false, List.mem_cons, not_or]
      exact ⟨hd, ih⟩

theorem replaceFrom_single_of_not_mem (c : Char) (new s : Str) (hs : c ∉ s) :
    replaceFrom [c] new s 0 = s := by
  induction s with
  | nil => rfl
  | cons d ds ih =>
    have hd : c ≠ d := by
      intro e
      subst e
      exact hs (List.mem_cons_self _ _)
    have hpre : List.isPrefixOf [c] (d :: ds) = false := by simp [List.isPrefixOf, hd]
    rw [replaceFrom, hpre, ih (fun h => hs (List.mem_cons_of_mem _ h))]
    rfl

theorem escapeNewlines_eq (s : Str) :
    escapeNewlines s = replaceFrom ['\n'] ['\\', 'n'] s 0 := rfl

theorem newline_not_mem_escapeNewlines (s : Str) : '\n' ∉ escapeNewlines s := by
  rw [escapeNewlines_eq]
  exact replaceFrom_single_not_mem '\n' _ s (by decide)

theorem escapeNewlines_idem (s : Str) : escapeNewlines (escapeNewlines s) = escapeNewlines s := by
  have h := newline_not_mem_escapeNewlines s
  rw [escapeNewlines_eq (escapeNewlines s)]
  exact replaceFrom_single_of_not_mem '\n' _ _ h

theorem formatterCsv_fold (env : Env) (cards done : List TrelloCardSearchResult) (st : State) :
    cards.foldl
        (fun (acc : List TrelloCardSearchResult × State) card =>
          let (done, st) := acc
          let card := { card with Desc := Replace card.Desc "\n".toList "\\n".toList }
          let colbuf := buildOutputLine env st.client card
          let st := Print st (Join colbuf st.client.config.ColSep)
          let st := Print st st.client.config.RowSep
          (done ++ [card], st))
        (done, st)
      = (done ++ cards.map (fun card => { card with Desc := escapeNewlines card.Desc }),
          ⟨st.client,
            st.stdout ++ cards.flatMap
              (fun card =>
                Join (buildOutputLine env st.client { card with Desc := escapeNewlines card.Desc })
                  st.client.config.ColSep ++ st.client.config.RowSep)⟩) := by
  induction cards generalizing done st with
  | nil => simp
  | cons card rest ih =>
    rw [List.foldl]
    simp only
    rw [ih]
    simp only [Print, escapeNewlines, List.map_cons, List.flatMap_cons, List.append_assoc,
      List.singleton_append]

theorem formatterCsv_eq (env : Env) (st : State) (cards : List TrelloCardSearchResult) :
    formatterCsv env st cards
      = (none,
          cards.map (fun card => { card with Desc := escapeNewlines card.Desc }),
          ⟨st.client,
            st.stdout
              ++ (Join (Split st.client.config.SearchResultFields ",".toList) st.client.config.ColSep
                ++ "\n".toList)
              ++ cards.flatMap
                (fun card =>
                  Join (buildOutputLine env st.client { card with Desc := escapeNewlines card.Desc })
                    st.client.config.ColSep ++ st.client.config.RowSep)⟩) := by
  unfold formatterCsv
  lift_lets
  intro header st1
  rw [formatterCsv_fold]
  simp only [st1, header, Println, Print, List.nil_append]

theorem memberFormatterCsv_fold (env : Env) (members done : List TrelloMember) (st : State) :
    members.foldl
        (fun (acc : List TrelloMember × State) member =>
          let (done, st) := acc
          let member := { member with Bio := Replace member.Bio "\n".toList "\\n".toList }
          let colbuf := buildMemberSlice env st.client member
          let st := Print st (Join colbuf st.client.config.ColSep)
          let st := Print st st.client.config.RowSep
          (done ++ [member], st))
        (done, st)
      = (done ++ members.map (fun member => { member with Bio := escapeNewlines member.Bio }),
          ⟨st.client,
            st.stdout ++ members.flatMap
              (fun member =>
                Join (buildMemberSlice env st.client { member with Bio := escapeNewlines member.Bio })
                  st.client.config.ColSep ++ st.client.config.RowSep)⟩) := by
  induction members generalizing done st with
  | nil => simp
  | cons member rest ih =>
    rw [List.foldl]
    simp only
    rw [ih]
    simp only [Print, escapeNewlines, List.map_cons, List.flatMap_cons, List.append_assoc,
      List.singleton_append]

theorem memberFormatterCsv_eq (env : Env) (st : State) (members : List TrelloMember) :
    memberFormatterCsv env st members
      = (none,
          members.map (fun member => { member with Bio := escapeNewlines member.Bio }),
          ⟨st.client,
            st.stdout
              ++ (Join (Split st.client.config.SearchResultFields ",".toList) st.client.config.ColSep
                ++ "\n".toList)
              ++ members.flatMap
                (fun member =>
                  Join (buildMemberSlice env st.client { member with Bio := escapeNewlines member.Bio })
                    st.client.config.ColSep ++ st.client.config.RowSep)⟩) := by
  unfold memberFormatterCsv
  lift_lets
  intro header st1
  rw [memberFormatterCsv_fold]
  simp only [st1, header, Println, Print, List.nil_append]

theorem cardItem_desc (env : Env) (client : TrelloClient) (card : TrelloCardSearchResult) :
    cardItem env client card "desc".toList = card.Desc := by
  simp [cardItem]

theorem memberItem_bio (member : TrelloMember) :
    memberItem member "bio".toList = escapeNewlines member.Bio := by
  simp [memberItem, escapeNewlines]

/-- C12, as the claim states it, fails when the quote character contains a
newline: the `desc` value is then the escaped description between two raw
newlines, and the record line holds them. -/
theorem csv_quote_newline_counterexample :
    buildOutputLine offlineEnv
        (withConfig emptyClient
          { defaultConfig with SearchResultFields := "desc".toList, QuoteChar := "\n".toList })
        { twoLineCard with Desc := escapeNewlines twoLineCard.Desc }
      = ["\ntwo\\nlines\n".toList] ∧
    '\n' ∈ "\ntwo\\nlines\n".toList ∧
    String.mk (formatterCsv offlineEnv
        ⟨withConfig emptyClient
          { defaultConfig with SearchResultFields := "desc".toList, QuoteChar := "\n".toList }, []⟩
        [twoLineCard]).2.2.stdout
      = "desc\n\ntwo\\nlines\n\n" := by
  refine ⟨by decide, by decide, by decide⟩

/-- C12, amended. The csv renderers write, after the header line, one record
per card (per member): the projected values of the record whose description
(bio) has its newlines escaped, joined by the column separator and ended by
the row separator. At a `desc` (`bio`) position the value is the escaped text
inside the configured quote characters; the escaped text holds no raw newline,
so the value holds one only when the quote character itself does. -/
theorem csv_escapes_free_text (env : Env) (st : State) (cards : List TrelloCardSearchResult)
    (members : List TrelloMember) (i : Nat) (name : Str)
    (hname : (Split st.client.config.SearchResultFields ",".toList)[i]? = some name) :
    (formatterCsv env st cards).2.2.stdout
        = st.stdout
          ++ (Join (Split st.client.config.SearchResultFields ",".toList) st.client.config.ColSep
            ++ "\n".toList)
          ++ cards.flatMap
            (fun card =>
              Join (buildOutputLine env st.client { card with Desc := escapeNewlines card.Desc })
                st.client.config.ColSep ++ st.client.config.RowSep) ∧
    (memberFormatterCsv env st members).2.2.stdout
        = st.stdout
          ++ (Join (Split st.client.config.SearchResultFields ",".toList) st.client.config.ColSep
            ++ "\n".toList)
          ++ members.flatMap
            (fun member =>
              Join (buildMemberSlice env st.client { member with Bio := escapeNewlines member.Bio })
                st.client.config.ColSep ++ st.client.config.RowSep) ∧
    (TrimSpace (ToLower env name) = "desc".toList →
      ∀ card : TrelloCardSearchResult,
        (buildOutputLine env st.client { card with Desc := escapeNewlines card.Desc })[i]?
          = some (quoteItem st.client.config (escapeNewlines card.Desc))) ∧
    (TrimSpace (ToLower env name) = "bio".toList →
      ∀ member : TrelloMember,
        (buildMemberSlice env st.client { member with Bio := escapeNewlines member.Bio })[i]?
          = some (quoteItem st.client.config (escapeNewlines member.Bio))) ∧
    ∀ text : Str,
      '\n' ∉ escapeNewlines text ∧
      ('\n' ∈ quoteItem st.client.config (escapeNewlines text) → '\n' ∈ st.client.config.QuoteChar) := by
  refine ⟨?_, ?_, ?_, ?_, ?_⟩
  · rw [formatterCsv_eq]
  · rw [memberFormatterCsv_eq]
  · intro hdesc card
    rw [buildOutputLine_eq_map, List.getElem?_map, hname]
    simp only [Option.map_some', hdesc, cardItem_desc]
  · intro hbio member
    rw [buildMemberSlice_eq_map, List.getElem?_map, hname]
    simp only [Option.map_some', hbio, memberItem_bio, escapeNewlines_idem]
  · intro text
    have hfree := newline_not_mem_escapeNewlines text
    refine ⟨hfree, ?_⟩
    unfold quoteItem
    split_ifs with hq
    · intro hmem
      simp only [List.mem_append] at hmem
      rcases hmem with (h | h) | h
      · exact h
      · exact absurd h hfree
      · exact h
    · intro hmem
      exact absurd hmem hfree

theorem csv_escapes_free_text_witness :
    (buildOutputLine offlineEnv (withFields emptyClient "name, Desc".toList)
        { twoLineCard with Desc := escapeNewlines twoLineCard.Desc })[1]?
      = some "two\\nlines".toList :=
  (csv_escapes_free_text offlineEnv ⟨withFields emptyClient "name, Desc".toList, []⟩ [twoLineCard]
    [emptyMember] 1 " Desc".toList (by decide)).2.2.1 (by decide) twoLineCard

/-! ## What rendering does to the records -/

theorem markdownLabels_fold (env : Env) (labels done : List TrelloLabel) (s : Str) :
    ∃ t, labels.foldl
        (fun (acc : List TrelloLabel × Str) label =>
          let (done, s) := acc
          let label :=
            if label.Name = [] then
              { label with Name := "[".toList ++ ToUpper env label.Color ++ "]".toList }
            else label
          let s := s ++ ("<span style=\"background-color: ".toList ++ label.Color ++ ";\">".toList
            ++ label.Name ++ "</span> ".toList)
          (done ++ [label], s))
        (done, s)
      = (done ++ labels.map (markdownLabel env), t) := by
  induction labels generalizing done s with
  | nil => exact ⟨s, by simp⟩
  | cons label rest ih =>
    rw [List.foldl]
    simp only
    obtain ⟨t, ht⟩ := ih (done ++ [markdownLabel env label])
      (s ++ ("<span style=\"background-color: ".toList ++ (markdownLabel env label).Color
        ++ ";\">".toList ++ (markdownLabel env label).Name ++ "</span> ".toList))
    refine ⟨t, ?_⟩
    simp only [markdownLabel] at ht
    rw [ht]
    simp only [markdownLabel, List.map_cons, List.append_assoc, List.singleton_append]

theorem markdownLabels_fst (env : Env) (labels : List TrelloLabel) :
    (markdownLabels env labels).1 = labels.map (markdownLabel env) := by
  obtain ⟨t, ht⟩ := markdownLabels_fold env labels [] []
  unfold markdownLabels
  rw [ht]
  simp

/-- C17, as the claim states it, fails: the csv renderer stores the escaped
description back into the card, and the markdown renderer gives a label
without a name its bracketed color as name. -/
theorem rendering_modifies_records_counterexample :
    (outputCards offlineEnv ⟨emptyClient, []⟩ [twoLineCard] "csv".toList).2.1
      = [{ twoLineCard with Desc := "two\\nlines".toList }] ∧
    (outputCards offlineEnv ⟨emptyClient, []⟩ [twoLineCard] "csv".toList).2.1 ≠ [twoLineCard] ∧
    (outputCards offlineEnv ⟨emptyClient, []⟩ [twoLineCard] "markdown".toList).2.1
      = [{ twoLineCard with
            Labels := [{ Color := "red".toList, ID := "x1".toList, IDBoard := "b1".toList,
                         Name := "[RED]".toList, Uses := 1 }] }] ∧
    (outputCards offlineEnv ⟨emptyClient, []⟩ [twoLineCard] "markdown".toList).2.1
      ≠ [twoLineCard] := by
  refine ⟨by decide, by decide, by decide, by decide⟩

/-- C17, amended. Under the formats `text`, `json` and `excel`, and for a
format that is not supported, `outputCards` leaves every card as it was. Under
`csv` each card comes back with its description replaced by the description
with newlines escaped, under `markdown` with each label that has no name named
by its bracketed, uppercased color; every other field of every card is as
before the call. -/
theorem outputCards_records (env : Env) (st : State) (cards : List TrelloCardSearchResult)
    (format : Str) :
    (ToLower env format ≠ "csv".toList → ToLower env format ≠ "markdown".toList →
      (outputCards env st cards format).2.1 = cards) ∧
    (ToLower env format = "csv".toList →
      (outputCards env st cards format).2.1
        = cards.map (fun card => { card with Desc := escapeNewlines card.Desc })) ∧
    (ToLower env format = "markdown".toList →
      (outputCards env st cards format).2.1
        = cards.map (fun card => { card with Labels := card.Labels.map (markdownLabel env) })) := by
  refine ⟨?_, ?_, ?_⟩
  · intro hcsv hmd
    unfold outputCards
    simp only [hcsv, hmd, if_false]
    split_ifs
    · rfl
    · unfold formatterJSON
      split <;> rfl
    · unfold formatterExcel
      lift_lets
      intro st1 rows
      split <;> rfl
    · rfl
  · intro hcsv
    have hout : outputCards env st cards format = formatterCsv env st cards := by
      unfold outputCards
      rw [hcsv]
      rfl
    rw [hout, formatterCsv_eq]
  · intro hmd
    have hout : outputCards env st cards format = formatterMarkdown env st cards := by
      unfold outputCards
      rw [hmd]
      rfl
    rw [hout, formatterMarkdown_eq]
    simp only [markdownLabels_fst]

end Tres
